import Mathlib

/-!
Verification development for the Pipelined-CPU-Emu repository.

Shallow embedding of the emulator core (src/types.rs, src/cpu.rs,
src/device.rs) and of the assembler back end
(src/assembler/{ast,eval,mod}.rs) in Lean 4, with theorems checking the
natural-language specification against the code.

Machine integers are represented as Nat with explicit reduction modulo
2^8 / 2^16 / 2^64 wherever the Rust code wraps.  Register-file indices
(the named constants GPR_A..GPR_D and SPR_PROGRAM_COUNTER..
SPR_DESTINATION_INDEX) are represented by dedicated enums.
-/

namespace Jam1

/-- Wrapping reduction for u8 values. -/
def wrap8 (x : Nat) : Nat := x % 256

/-- Wrapping reduction for u16 values. -/
def wrap16 (x : Nat) : Nat := x % 65536

/-!
### src/types.rs: hardware integer types

The macro def_hardware_type generates the operator impls for Byte (u8)
and Word (u16).  The four subtraction-shaped impls are reproduced here
exactly as written in the source.
-/

/-- Embeds impl Add for Byte: Self(self.0 + rhs.0), wrapping u8 addition. -/
def byteAdd (a b : Nat) : Nat := wrap8 (a + b)

/-- Embeds impl Sub for Byte (src/types.rs lines 53-60).  The body of
fn sub is Self(self.0 + rhs.0), i.e. it performs a wrapping ADDITION. -/
def byteSub (a b : Nat) : Nat := wrap8 (a + b)

/-- Embeds impl SubAssign for Byte: self.0 -= rhs.0, a wrapping u8
subtraction. -/
def byteSubAssign (a b : Nat) : Nat := (a % 256 + 256 - b % 256) % 256

/-- Embeds impl Sub of a raw u8 for Byte (src/types.rs lines 67-74).
The body is Self(self.0 + Wrapping(rhs)): again a wrapping addition. -/
def byteSubScalar (a b : Nat) : Nat := wrap8 (a + b)

/-- Embeds impl Add for Word: wrapping u16 addition. -/
def wordAdd (a b : Nat) : Nat := wrap16 (a + b)

/-- Embeds impl Sub for Word (same macro expansion as Byte): the body
computes a wrapping ADDITION of the two operands. -/
def wordSub (a b : Nat) : Nat := wrap16 (a + b)

/-- Embeds impl SubAssign for Word: a wrapping u16 subtraction. -/
def wordSubAssign (a b : Nat) : Nat := (a % 65536 + 65536 - b % 65536) % 65536

/-- Embeds impl Sub of a raw u16 for Word: again a wrapping addition. -/
def wordSubScalar (a b : Nat) : Nat := wrap16 (a + b)

/-- Word::low: least significant byte. -/
def wordLow (w : Nat) : Nat := w % 256

/-- Word::high: most significant byte (w < 65536 in every reachable
state, so the result is already below 256). -/
def wordHigh (w : Nat) : Nat := (w / 256) % 256

/-- Word::set_low: replace the least significant byte. -/
def wordSetLow (w v : Nat) : Nat := (wordHigh w) * 256 + v % 256

/-- Word::set_high: replace the most significant byte. -/
def wordSetHigh (w v : Nat) : Nat := (v % 256) * 256 + wordLow w

/-- Bitwise not on a u8 value (Rust !b on u8). -/
def bnot8 (b : Nat) : Nat := 255 - b % 256

/-!
### src/device.rs: Color, Memory, Vga, Uart, Audio, Lcd
-/

/-- Color: four u8 channels (r, g, b, alpha). -/
structure Color where
  c0 : Nat
  c1 : Nat
  c2 : Nat
  c3 : Nat
deriving DecidableEq, Repr

/-- Color::BLACK = from_rgb(0, 0, 0); alpha is u8::MAX. -/
def Color.black : Color := ⟨0, 0, 0, 255⟩

/-- Vga device state.  The PixelBuffer is represented as a function from
(column, row) to Color. -/
structure Vga where
  buffer : Nat → Nat → Color
  h_counter : Nat
  v_counter : Nat
  h_pixel : Nat
  v_pixel : Nat
  h_offset : Nat
  v_offset : Nat
  update_vscroll : Bool

/-- Memory device state.  The 64 KiB RAM and the 32 KiB palette RAM are
represented as functions from address to byte. -/
structure Memory where
  data : Nat → Nat
  palette_data : Nat → Nat
  framebuffer_conflict : Bool
  last_framebuffer_data : Nat
  palette_conflict : Bool
  last_palette_data : Color
  palette_high : Nat
  tile_data_conflict : Bool
  last_tile_data : Nat

/-- Vga::write_mapped_io: update one byte of h_offset / v_offset;
writing byte 3 (the high byte of v_offset) sets the update_vscroll
latch. -/
def Vga.write_mapped_io (v : Vga) (addr value : Nat) : Vga :=
  match addr with
  | 0 => { v with h_offset := wordSetLow v.h_offset value }
  | 1 => { v with h_offset := wordSetHigh v.h_offset value }
  | 2 => { v with v_offset := wordSetLow v.v_offset value }
  | 3 => { v with v_offset := wordSetHigh v.v_offset value,
                  update_vscroll := true }
  | _ => v

/-- Memory::write: MMIO delegates to the VGA; otherwise the RAM cell is
updated, and a write into the framebuffer / palette / tile-data
aperture additionally raises the corresponding conflict flag (palette
writes also store into the banked palette RAM and may update the bank
register). -/
def Memory.write (m : Memory) (vga : Vga) (addr value : Nat) :
    Memory × Vga :=
  if 0x8B00 ≤ addr ∧ addr < 0x8C00 then
    if 0x8B80 ≤ addr ∧ addr < 0x8B84 then
      (m, vga.write_mapped_io (addr - 0x8B80) value)
    else (m, vga)
  else
    let m :=
      if 0xC000 ≤ addr ∧ addr < 0xE000 then
        { m with framebuffer_conflict := true }
      else if 0x8C00 ≤ addr ∧ addr < 0x9000 then
        let paletteAddr := m.palette_high * 1024 + addr % 1024
        let m := { m with palette_conflict := true,
                          palette_data := fun a =>
                            if a = paletteAddr then value
                            else m.palette_data a }
        if addr % 4 = 3 then { m with palette_high := value % 32 } else m
      else if 0xA000 ≤ addr ∧ addr < 0xC000 then
        { m with tile_data_conflict := true }
      else m
    ({ m with data := fun a => if a = addr then value else m.data a }, vga)

/-- Memory::framebuffer_read: under a bus conflict return the cached
byte; otherwise read the cell (address masked into [0xC000, 0xE000))
and refresh the cache. -/
def Memory.framebuffer_read (m : Memory) (addr : Nat) : Nat × Memory :=
  if m.framebuffer_conflict then
    (m.last_framebuffer_data, m)
  else
    let a := addr % 0x2000 + 0xC000
    let d := m.data a
    (d, { m with last_framebuffer_data := d })

/-- Memory::palette_read: under a bus conflict return the cached color;
otherwise assemble the color from the banked palette RAM and refresh
the cache. -/
def Memory.palette_read (m : Memory) (index : Nat) : Color × Memory :=
  if m.palette_conflict then
    (m.last_palette_data, m)
  else
    let paletteAddr := m.palette_high * 1024 + index * 4
    let color : Color := ⟨m.palette_data paletteAddr,
                          m.palette_data (paletteAddr + 1),
                          m.palette_data (paletteAddr + 2), 255⟩
    (color, { m with last_palette_data := color })

/-- Memory::tile_data_read: under a bus conflict return the cached byte;
otherwise read the cell (address masked into [0xA000, 0xC000)) and
refresh the cache. -/
def Memory.tile_data_read (m : Memory) (addr : Nat) : Nat × Memory :=
  if m.tile_data_conflict then
    (m.last_tile_data, m)
  else
    let a := addr % 0x2000 + 0xA000
    let d := m.data a
    (d, { m with last_tile_data := d })

/-- Memory::reset_vga_conflict: clear all three conflict flags. -/
def Memory.reset_vga_conflict (m : Memory) : Memory :=
  { m with framebuffer_conflict := false,
           palette_conflict := false,
           tile_data_conflict := false }

/-- PixelBuffer::set_pixel_at. -/
def Vga.set_pixel_at (v : Vga) (col row : Nat) (color : Color) : Vga :=
  { v with buffer := fun x y =>
      if x = col ∧ y = row then color else v.buffer x y }

/-- One iteration of the loop body of Vga::clock: advance the counters,
perform the line-end / frame-end reloads, and for visible pixels sample
the framebuffer, tile data and palette into the output buffer. -/
def Vga.step (v : Vga) (mem : Memory) : Vga × Memory :=
  let v := { v with h_counter := v.h_counter + 1,
                    h_pixel := wrap16 (v.h_pixel + 1) }
  let v : Vga :=
    if v.h_counter = 800 then
      let v := { v with h_counter := 0,
                        h_pixel := wrap16 (v.h_offset + 47),
                        v_counter := v.v_counter + 1 }
      let v :=
        if v.update_vscroll then { v with v_pixel := v.v_offset }
        else { v with v_pixel := wrap16 (v.v_pixel + 1) }
      if v.v_counter = 525 then
        { v with v_counter := 0,
                 v_pixel := wrap16 (v.v_offset + 33),
                 update_vscroll := false }
      else v
    else v
  if v.h_counter < 640 ∧ v.v_counter < 480 then
    let hAddr := (v.h_pixel / 8) % 128
    let vAddr := (v.v_pixel / 8) % 64
    let tileX := v.h_pixel % 8
    let tileY := v.v_pixel % 8
    let framebufferAddr := hAddr ||| (vAddr * 128)
    let fr := mem.framebuffer_read framebufferAddr
    let tileIndex := fr.1
    let mem := fr.2
    let tileAddr := (tileIndex * 32) ||| (tileY * 4) ||| (tileX / 2)
    let nibbleShift := (tileX % 2) * 4
    let tr := mem.tile_data_read tileAddr
    let tileByte := tr.1
    let mem := tr.2
    let paletteIndex := (tileByte / 2 ^ nibbleShift) % 16
    let pr := mem.palette_read paletteIndex
    (v.set_pixel_at v.h_counter v.v_counter pr.1, pr.2)
  else (v, mem)

/-- The Uart FIFOs (depth 8 each), modeled as lists with the oldest
element first. -/
structure Uart where
  receive : List Nat
  transmit : List Nat

/-- The three-phase audio write cycle state. -/
inductive AudioCycleState where
  | channelSelect
  | lowData
  | highData
deriving DecidableEq, Repr

/-- A square wave channel.  The f32 volume is determined by the top
4 bits of the written word, stored here as that raw 4-bit value; the
frequency is the low 12 bits. -/
structure SquareWaveChannel where
  volumeRaw : Nat
  frequency : Nat
deriving DecidableEq, Repr

/-- SquareWaveChannel::write. -/
def SquareWaveChannel.write (_c : SquareWaveChannel) (data : Nat) :
    SquareWaveChannel :=
  ⟨(data / 4096) % 16, data % 4096⟩

/-- The audio device (sans the f32 mixing state, which no CPU-visible
behaviour depends on). -/
structure Audio where
  channel0 : SquareWaveChannel
  channel1 : SquareWaveChannel
  channel2 : SquareWaveChannel
  channel3 : SquareWaveChannel
  cycle_state : AudioCycleState
  channel_index : Nat
  low_data : Nat

/-- Lcd: a stub device with no state. -/
structure Lcd where
  unused : Unit

/-- General purpose register index (GPR_A = 0 .. GPR_D = 3). -/
inductive Gpr where
  | a | b | c | d
deriving DecidableEq, Repr

/-- Special purpose register index (SPR_PROGRAM_COUNTER = 0 ..
SPR_DESTINATION_INDEX = 4). -/
inductive Spr where
  | pc | ra | sp | si | di
deriving DecidableEq, Repr

/-- LoadSource from src/cpu.rs. -/
inductive LoadSource where
  | constant
  | gpr (g : Gpr)
  | transferLow
  | transferHigh
  | sprIndirect (r : Spr)
  | transferIndirect
deriving DecidableEq, Repr

/-- StoreTarget from src/cpu.rs. -/
inductive StoreTarget where
  | gpr (g : Gpr)
  | transferLow
  | transferHigh
  | sprIndirect (r : Spr)
  | transferIndirect
deriving DecidableEq, Repr

/-- LoadWordSource from src/cpu.rs. -/
inductive LoadWordSource where
  | spr (r : Spr)
  | transfer
deriving DecidableEq, Repr

/-- StoreWordTarget from src/cpu.rs. -/
inductive StoreWordTarget where
  | spr (r : Spr)
  | transfer
deriving DecidableEq, Repr

/-- CountTarget from src/cpu.rs. -/
inductive CountTarget where
  | spr (r : Spr)
deriving DecidableEq, Repr

/-- JumpTarget from src/cpu.rs. -/
inductive JumpTarget where
  | transfer
  | spr (r : Spr)
deriving DecidableEq, Repr

/-- StackTarget from src/cpu.rs. -/
inductive StackTarget where
  | gpr (g : Gpr)
  | transferLow
  | transferHigh
deriving DecidableEq, Repr

/-- IORegister from src/cpu.rs. -/
inductive IORegister where
  | lcdCmd | lcdData | uartData | uartCtrl | audioData | vgaData
deriving DecidableEq, Repr

/-- The decoded instruction set from src/cpu.rs.  AluSource has the
single constructor Gpr(index), so Gpr is used directly in its place.
The Rust variants In and Break are named inp and brk here (Lean
keywords). -/
inductive Instruction where
  | nop
  | mov (src : LoadSource) (tgt : StoreTarget)
  | movWord (src : LoadWordSource) (tgt : StoreWordTarget)
  | incWord (tgt : CountTarget)
  | decWord (tgt : CountTarget)
  | prebranch
  | jmp (t : JumpTarget)
  | jo (t : JumpTarget)
  | jno (t : JumpTarget)
  | js (t : JumpTarget)
  | jns (t : JumpTarget)
  | jz (t : JumpTarget)
  | jnz (t : JumpTarget)
  | jc (t : JumpTarget)
  | jnc (t : JumpTarget)
  | jna (t : JumpTarget)
  | ja (t : JumpTarget)
  | jl (t : JumpTarget)
  | jge (t : JumpTarget)
  | jle (t : JumpTarget)
  | jg (t : JumpTarget)
  | jlc (t : JumpTarget)
  | jnlc (t : JumpTarget)
  | clc
  | shl (t : Gpr)
  | shr (t : Gpr)
  | add (src tgt : Gpr)
  | addc (src tgt : Gpr)
  | inc (t : Gpr)
  | incc (t : Gpr)
  | sub (src tgt : Gpr)
  | subb (src tgt : Gpr)
  | dec (t : Gpr)
  | and (src tgt : Gpr)
  | or (src tgt : Gpr)
  | xor (src tgt : Gpr)
  | not (t : Gpr)
  | cmp (src tgt : Gpr)
  | test (src : Gpr)
  | push (src : StackTarget)
  | pop (tgt : StackTarget)
  | call (t : JumpTarget)
  | ret
  | out (src : Gpr) (r : IORegister)
  | inp (r : IORegister) (tgt : Gpr)
  | brk
  | lodsb
  | stosb
  | addac
  | subae
deriving DecidableEq, Repr

/-- The CPU flag register (FLAG_OVERFLOW .. FLAG_SIGN). -/
structure Flags where
  overflow : Bool
  zero : Bool
  carry : Bool
  logicalCarry : Bool
  sign : Bool
deriving DecidableEq, Repr

/-- The CPU state from src/cpu.rs.  The spr array is represented by the
five named fields, the gpr array by the four named fields. -/
structure Cpu where
  transfer : Nat
  pc : Nat
  ra : Nat
  sp : Nat
  si : Nat
  di : Nat
  constant : Nat
  a : Nat
  b : Nat
  c : Nat
  d : Nat
  stage0 : Instruction
  stage1 : Instruction
  stage2 : Instruction
  lhsLatch : Nat
  rhsLatch : Nat
  subaeCarry : Nat
  flags : Flags
deriving DecidableEq, Repr

/-- Read a general purpose register. -/
def Cpu.getGpr (cpu : Cpu) : Gpr → Nat
  | .a => cpu.a
  | .b => cpu.b
  | .c => cpu.c
  | .d => cpu.d

/-- Write a general purpose register. -/
def Cpu.setGpr (cpu : Cpu) (g : Gpr) (v : Nat) : Cpu :=
  match g with
  | .a => { cpu with a := v }
  | .b => { cpu with b := v }
  | .c => { cpu with c := v }
  | .d => { cpu with d := v }

/-- Read a special purpose register. -/
def Cpu.getSpr (cpu : Cpu) : Spr → Nat
  | .pc => cpu.pc
  | .ra => cpu.ra
  | .sp => cpu.sp
  | .si => cpu.si
  | .di => cpu.di

/-- Write a special purpose register. -/
def Cpu.setSpr (cpu : Cpu) (r : Spr) (v : Nat) : Cpu :=
  match r with
  | .pc => { cpu with pc := v }
  | .ra => { cpu with ra := v }
  | .sp => { cpu with sp := v }
  | .si => { cpu with si := v }
  | .di => { cpu with di := v }

/-- spr[index] += 1 (wrapping u16 increment). -/
def Cpu.incSpr (cpu : Cpu) (r : Spr) : Cpu :=
  cpu.setSpr r (wrap16 (cpu.getSpr r + 1))

/-- spr[index] -= 1 (wrapping u16 decrement). -/
def Cpu.decSpr (cpu : Cpu) (r : Spr) : Cpu :=
  cpu.setSpr r ((cpu.getSpr r % 65536 + 65536 - 1) % 65536)

/-- Cpu::new: all registers zero, all stages NOP, flags clear. -/
def Cpu.new : Cpu where
  transfer := 0
  pc := 0
  ra := 0
  sp := 0
  si := 0
  di := 0
  constant := 0
  a := 0
  b := 0
  c := 0
  d := 0
  stage0 := .nop
  stage1 := .nop
  stage2 := .nop
  lhsLatch := 0
  rhsLatch := 0
  subaeCarry := 0
  flags := ⟨false, false, false, false, false⟩

/-- Cpu::reset (src/cpu.rs lines 371-378): it sets the program counter
to PROGRAM_COUNTER_INIT (0x0000), the stack pointer to
STACK_POINTER_INIT (0x0000) and the three pipeline registers to NOP; no
other state is touched and no reset vector is accepted. -/
def Cpu.reset (cpu : Cpu) : Cpu :=
  { cpu with pc := 0x0000, sp := 0x0000,
             stage0 := .nop, stage1 := .nop, stage2 := .nop }

/-- Cpu::store: returns whether the access was a memory write together
with the updated CPU, memory and VGA. -/
def Cpu.store (cpu : Cpu) (mem : Memory) (vga : Vga)
    (tgt : StoreTarget) (value : Nat) : Bool × Cpu × Memory × Vga :=
  match tgt with
  | .gpr g => (false, cpu.setGpr g value, mem, vga)
  | .transferLow =>
    (false, { cpu with transfer := wordSetLow cpu.transfer value }, mem, vga)
  | .transferHigh =>
    (false, { cpu with transfer := wordSetHigh cpu.transfer value }, mem, vga)
  | .sprIndirect r =>
    let w := mem.write vga (cpu.getSpr r) value
    (true, cpu, w.1, w.2)
  | .transferIndirect =>
    let w := mem.write vga cpu.transfer value
    (true, cpu, w.1, w.2)

/-- Cpu::store_word. -/
def Cpu.storeWord (cpu : Cpu) (tgt : StoreWordTarget) (value : Nat) : Cpu :=
  match tgt with
  | .spr r => cpu.setSpr r value
  | .transfer => { cpu with transfer := value }

/-- Cpu::jump_to: load the program counter from the jump target. -/
def Cpu.jumpTo (cpu : Cpu) : JumpTarget → Cpu
  | .transfer => { cpu with pc := cpu.transfer }
  | .spr r => { cpu with pc := cpu.getSpr r }

/-- Cpu::flip_pc_ra: swap the program counter and return address
registers. -/
def Cpu.flipPcRa (cpu : Cpu) : Cpu :=
  { cpu with pc := cpu.ra, ra := cpu.pc }

/-- Cpu::alu_stage2 (src/cpu.rs lines 458-497): compute
lhs + rhs + carry over u16, write the low byte back to the optional
target GPR, and derive the carry, zero, sign and overflow flags. -/
def Cpu.aluStage2 (cpu : Cpu) (target : Option Gpr)
    (carryOverride : Option Nat) : Cpu × Flags :=
  let lhs := cpu.lhsLatch
  let rhs := cpu.rhsLatch
  let carryAdd : Nat :=
    match carryOverride with
    | some v => v
    | none => if cpu.flags.carry then 1 else 0
  let resultLong := wrap16 (lhs + rhs + carryAdd)
  let result := resultLong % 256
  let newFlags := { cpu.flags with
    carry := decide (resultLong > 0x00FF),
    zero := decide (result = 0),
    sign := decide (result &&& 0x80 ≠ 0) }
  let lhsSign := decide (lhs &&& 0x80 ≠ 0)
  let rhsSign := decide (rhs &&& 0x80 ≠ 0)
  let newFlags := { newFlags with
    overflow := lhsSign == rhsSign && lhsSign != newFlags.sign }
  let cpu :=
    match target with
    | some g => cpu.setGpr g result
    | none => cpu
  (cpu, newFlags)

/-- Cpu::shift_op_stage1: zero the RHS latch, run the shift on the
target GPR with the logical carry flag as shift-in, store the result in
the LHS latch and return the shifted-out carry. -/
def Cpu.shiftOpStage1 (cpu : Cpu) (target : Gpr)
    (op : Nat → Nat → Nat × Bool) : Cpu × Bool :=
  let v := cpu.getGpr target
  let cpu := { cpu with rhsLatch := 0 }
  let r := op v (if cpu.flags.logicalCarry then 1 else 0)
  ({ cpu with lhsLatch := r.1 }, r.2)

/-- Cpu::logic_op_stage1: zero the LHS latch and store op(source,
target) in the RHS latch. -/
def Cpu.logicOpStage1 (cpu : Cpu) (src tgt : Gpr)
    (op : Nat → Nat → Nat) : Cpu :=
  { cpu with lhsLatch := 0, rhsLatch := op (cpu.getGpr src) (cpu.getGpr tgt) }

/-- Cpu::arithmetic_op_stage1: latch target into LHS and source
(optionally bitwise negated) into RHS. -/
def Cpu.arithmeticOpStage1 (cpu : Cpu) (src tgt : Gpr)
    (invertRhs : Bool) : Cpu :=
  let a := cpu.getGpr tgt
  let b := cpu.getGpr src
  { cpu with lhsLatch := a, rhsLatch := if invertRhs then bnot8 b else b }

/-- The machine state threaded through Cpu::clock: the CPU and the five
devices passed to it by reference. -/
structure Sys where
  cpu : Cpu
  mem : Memory
  lcd : Lcd
  uart : Uart
  audio : Audio
  vga : Vga

/-- The pipeline shift at the top of Cpu::clock: stage2 receives the
old stage1, stage1 receives the old stage0. -/
def shiftStages (s : Sys) : Sys :=
  { s with cpu := { s.cpu with stage2 := s.cpu.stage1,
                               stage1 := s.cpu.stage0 } }

/-- A zeroed 64 KiB memory. -/
def zeroMem : Memory where
  data := fun _ => 0
  palette_data := fun _ => 0
  framebuffer_conflict := false
  last_framebuffer_data := 0
  palette_conflict := false
  last_palette_data := Color.black
  palette_high := 0
  tile_data_conflict := false
  last_tile_data := 0

/-- A freshly constructed VGA. -/
def zeroVga : Vga where
  buffer := fun _ _ => Color.black
  h_counter := 0
  v_counter := 0
  h_pixel := 0
  v_pixel := 0
  h_offset := 0
  v_offset := 0
  update_vscroll := false

/-- The carry-in value selected by alu_stage2: the override when given,
otherwise the current carry flag. -/
def carryIn (cpu : Cpu) (co : Option Nat) : Nat :=
  match co with
  | some v => v
  | none => if cpu.flags.carry then 1 else 0

/-- A memory with an active framebuffer conflict and a cached byte. -/
def c5wMem : Memory :=
  { zeroMem with framebuffer_conflict := true, last_framebuffer_data := 0x55 }

/-- The C8 counterexample VGA state: update_vscroll latched, one
sub-tick away from a line wrap in the vertical blanking region. -/
def c8Vga : Vga :=
  { zeroVga with h_counter := 799, v_counter := 500, v_pixel := 77,
                 v_offset := 42, update_vscroll := true }

/-- The C8 witness VGA state: update_vscroll latched, one sub-tick away
from the frame wrap. -/
def c8wVga : Vga :=
  { zeroVga with h_counter := 799, v_counter := 524, v_pixel := 77,
                 v_offset := 42, update_vscroll := true }

/-- The C6 CPU state: every register, latch and flag holds a nonzero
value before reset. -/
def c6Cpu : Cpu :=
  { transfer := 0x4444, pc := 0x1234, ra := 0x2222, sp := 0x0007,
    si := 0x0005, di := 0x0006, constant := 0x09, a := 1, b := 2, c := 3,
    d := 4, stage0 := .clc, stage1 := .ret, stage2 := .lodsb,
    lhsLatch := 3, rhsLatch := 4, subaeCarry := 1,
    flags := ⟨true, true, true, true, true⟩ }

/-!
### src/assembler: expressions, label evaluation, encoding and layout

The lexer and the parser are not embedded; statements are taken at the
level of the parsed AST (src/assembler/ast.rs), which is also where the
claims point.  Only the AST constructors the claims exercise are
carried (MOV and JMP instructions, labels, offset and align
directives); each embedded encode / emit_size function reproduces the
full operand table of its source counterpart.
-/

/-- Wrapping reduction into the i64 range. -/
def wrap64 (x : Int) : Int := (x + 2 ^ 63).emod (2 ^ 64) - 2 ^ 63

/-- The expression AST from src/assembler/ast.rs; an IntegerLiteral
carries Option Int because IntegerLiteral::value() is Option<i64>. -/
inductive Expression where
  | literal (v : Option Int)
  | identifier (name : String)
  | group (e : Expression)
  | identity (e : Expression)
  | negation (e : Expression)
  | bitwiseNot (e : Expression)
  | addition (l r : Expression)
  | subtraction (l r : Expression)
  | multiplication (l r : Expression)
  | division (l r : Expression)
  | remainder (l r : Expression)
  | leftShift (l r : Expression)
  | arithmeticRightShift (l r : Expression)
  | logicalRightShift (l r : Expression)
  | bitwiseAnd (l r : Expression)
  | bitwiseOr (l r : Expression)
  | bitwiseXor (l r : Expression)
deriving DecidableEq, Repr

/-- EvalError from src/assembler/eval.rs (source spans dropped; the
undefined-symbol payload keeps the name). -/
inductive EvalError where
  | invalidLiteralValue
  | divideByZero
  | errorInReferenceEval
  | missingReferenceValue
  | undefinedSymbol (name : String)
deriving DecidableEq, Repr

/-- The value map built by evaluate_labels: an association list from
label name to Option i64 with HashMap semantics (unique keys). -/
abbrev ValueMap := List (String × Option Int)

/-- Whether the value map has an entry for the name
(HashMap::contains_key). -/
def mapContains (m : ValueMap) (k : String) : Bool :=
  m.any fun p => p.1 = k

/-- Expression::try_eval from src/assembler/eval.rs over i64 wrapping
arithmetic: division and remainder truncate toward zero and fail on a
zero divisor, << and the arithmetic >> are masked to 6 bits of shift as
on release-mode hardware, the logical >>> reinterprets as u64. -/
def Expression.try_eval (e : Expression) (labelSet : List String)
    (valueMap : ValueMap) : Except EvalError Int :=
  match e with
  | .literal v =>
    match v with
    | some v => .ok v
    | none => .error .invalidLiteralValue
  | .identifier name =>
    match valueMap.lookup name with
    | some (some v) => .ok v
    | some none => .error .errorInReferenceEval
    | none =>
      if name ∈ labelSet then .error .missingReferenceValue
      else .error (.undefinedSymbol name)
  | .group e => e.try_eval labelSet valueMap
  | .identity e => e.try_eval labelSet valueMap
  | .negation e => (e.try_eval labelSet valueMap).map fun v => wrap64 (-v)
  | .bitwiseNot e => (e.try_eval labelSet valueMap).map fun v => -v - 1
  | .addition l r => do
    let lv ← l.try_eval labelSet valueMap
    let rv ← r.try_eval labelSet valueMap
    pure (wrap64 (lv + rv))
  | .subtraction l r => do
    let lv ← l.try_eval labelSet valueMap
    let rv ← r.try_eval labelSet valueMap
    pure (wrap64 (lv - rv))
  | .multiplication l r => do
    let lv ← l.try_eval labelSet valueMap
    let rv ← r.try_eval labelSet valueMap
    pure (wrap64 (lv * rv))
  | .division l r => do
    let lv ← l.try_eval labelSet valueMap
    let rv ← r.try_eval labelSet valueMap
    if rv = 0 then throw .divideByZero else pure (wrap64 (lv.tdiv rv))
  | .remainder l r => do
    let lv ← l.try_eval labelSet valueMap
    let rv ← r.try_eval labelSet valueMap
    if rv = 0 then throw .divideByZero else pure (wrap64 (lv.tmod rv))
  | .leftShift l r => do
    let lv ← l.try_eval labelSet valueMap
    let rv ← r.try_eval labelSet valueMap
    pure (wrap64 (lv * 2 ^ (rv.emod 64).toNat))
  | .arithmeticRightShift l r => do
    let lv ← l.try_eval labelSet valueMap
    let rv ← r.try_eval labelSet valueMap
    pure (wrap64 (lv.fdiv (2 ^ (rv.emod 64).toNat)))
  | .logicalRightShift l r => do
    let lv ← l.try_eval labelSet valueMap
    let rv ← r.try_eval labelSet valueMap
    pure (wrap64 (Int.ofNat
      (((wrap64 lv).emod (2 ^ 64)).toNat >>> (rv.emod 64).toNat)))
  | .bitwiseAnd l r => do
    let lv ← l.try_eval labelSet valueMap
    let rv ← r.try_eval labelSet valueMap
    pure (Int.land lv rv)
  | .bitwiseOr l r => do
    let lv ← l.try_eval labelSet valueMap
    let rv ← r.try_eval labelSet valueMap
    pure (Int.lor lv rv)
  | .bitwiseXor l r => do
    let lv ← l.try_eval labelSet valueMap
    let rv ← r.try_eval labelSet valueMap
    pure (Int.xor lv rv)

/-- The assembler diagnostics produced by the embedded passes (source
spans replaced by the offending name where one exists). -/
inductive AsmDiag where
  | divideByZero
  | undefinedSymbol (name : String)
  | cyclicExpression (name : String)
  | sectionTooLarge (name : String)
  | overlappingSections (first second : String)
  | invalidValue
  | invalidDirective
  | invalidIntegerLiteral
  | unclosedStringLiteral
  | invalidEscapeSequence
  | invalidChars
deriving DecidableEq, Repr

/-- Expression::eval_or_zero: evaluate, mapping a divide-by-zero or an
undefined symbol to value 0 plus a diagnostic; the remaining error
kinds are unreachable!() in the source, modeled as none. -/
def Expression.eval_or_zero (e : Expression) (labelSet : List String)
    (valueMap : ValueMap) : Option (Int × List AsmDiag) :=
  match e.try_eval labelSet valueMap with
  | .ok v => some (v, [])
  | .error .divideByZero => some (0, [.divideByZero])
  | .error (.undefinedSymbol n) => some (0, [.undefinedSymbol n])
  | .error .invalidLiteralValue => none
  | .error .errorInReferenceEval => none
  | .error .missingReferenceValue => none

/-- RegisterKind from src/assembler/lexer.rs. -/
inductive RegisterKind where
  | a | b | c | d | tl | th | si | di | tx | ab | cd | ra | sp
deriving DecidableEq, Repr

/-- MovDestination from src/assembler/ast.rs. -/
inductive MovDestination where
  | register (r : RegisterKind)
  | memory (addressSource : RegisterKind)
deriving DecidableEq, Repr

/-- MovSource from src/assembler/ast.rs. -/
inductive MovSource where
  | value (e : Expression)
  | register (r : RegisterKind)
  | memory (addressSource : RegisterKind)
deriving DecidableEq, Repr

/-- The assembler-side JumpTarget from src/assembler/ast.rs. -/
inductive AsmJumpTarget where
  | value (e : Expression)
  | register (r : RegisterKind)
deriving DecidableEq, Repr

/-- The operand-shape table of MovInstruction::new: the emit size of a
legal MOV, none for an illegal operand combination. -/
def movEmitSize : MovDestination → MovSource → Option Nat
  | .register d, .value _ =>
    match d with
    | .a => some 2
    | .b => some 2
    | .c => some 2
    | .d => some 2
    | .tl => some 2
    | .th => some 2
    | .tx => some 4
    | .ab => some 4
    | .cd => some 4
    | .si => some 5
    | .di => some 5
    | _ => none
  | .register d, .register s =>
    match d, s with
    | .a, .b => some 1
    | .a, .c => some 1
    | .a, .d => some 1
    | .b, .a => some 1
    | .b, .c => some 1
    | .b, .d => some 1
    | .c, .a => some 1
    | .c, .b => some 1
    | .c, .d => some 1
    | .d, .a => some 1
    | .d, .b => some 1
    | .d, .c => some 1
    | .a, .tl => some 1
    | .a, .th => some 1
    | .b, .tl => some 1
    | .b, .th => some 1
    | .c, .tl => some 1
    | .c, .th => some 1
    | .d, .tl => some 1
    | .d, .th => some 1
    | .tl, .a => some 1
    | .tl, .b => some 1
    | .tl, .c => some 1
    | .tl, .d => some 1
    | .th, .a => some 1
    | .th, .b => some 1
    | .th, .c => some 1
    | .th, .d => some 1
    | .ra, .tx => some 1
    | .tx, .ra => some 1
    | .sp, .tx => some 1
    | .tx, .sp => some 1
    | .si, .tx => some 1
    | .tx, .si => some 1
    | .di, .tx => some 1
    | .tx, .di => some 1
    | .di, .si => some 1
    | .si, .di => some 1
    | .si, .sp => some 1
    | .di, .sp => some 1
    | _, _ => none
  | .register d, .memory s =>
    match d, s with
    | .a, .si => some 1
    | .b, .si => some 1
    | .c, .si => some 1
    | .d, .si => some 1
    | .a, .di => some 1
    | .b, .di => some 1
    | .c, .di => some 1
    | .d, .di => some 1
    | .a, .tx => some 1
    | .b, .tx => some 1
    | .c, .tx => some 1
    | .d, .tx => some 1
    | _, _ => none
  | .memory d, .register s =>
    match d, s with
    | .si, .a => some 1
    | .si, .b => some 1
    | .si, .c => some 1
    | .si, .d => some 1
    | .di, .a => some 1
    | .di, .b => some 1
    | .di, .c => some 1
    | .di, .d => some 1
    | .tx, .a => some 1
    | .tx, .b => some 1
    | .tx, .c => some 1
    | .tx, .d => some 1
    | _, _ => none
  | _, _ => none

/-- MovInstruction from src/assembler/ast.rs: validated operands plus
the pre-computed emit size. -/
structure MovInstruction where
  destination : MovDestination
  source : MovSource
  emit_size : Nat
deriving DecidableEq, Repr

/-- MovInstruction::new: succeeds exactly on the legal operand shapes,
storing the computed emit size. -/
def MovInstruction.new (destination : MovDestination)
    (source : MovSource) : Option MovInstruction :=
  (movEmitSize destination source).map fun sz => ⟨destination, source, sz⟩

/-- JmpInstruction from src/assembler/ast.rs. -/
structure JmpInstruction where
  target : AsmJumpTarget
  emit_size : Nat
deriving DecidableEq, Repr

/-- JmpInstruction::new: an expression target emits 6 bytes, a register
target must be TX or DI and emits 2. -/
def JmpInstruction.new (target : AsmJumpTarget) : Option JmpInstruction :=
  match target with
  | .value _ => some ⟨target, 6⟩
  | .register r =>
    match r with
    | .tx => some ⟨target, 2⟩
    | .di => some ⟨target, 2⟩
    | _ => none

/-- The byte cursor of the emission pass (std::io::Cursor over the
pre-sized output vector): writes overwrite in place and advance the
position. -/
structure ByteCursor where
  data : List Nat
  pos : Nat
deriving DecidableEq, Repr

/-- Overwrite bytes at a position (writes past the end of the pre-sized
buffer cannot occur for a well-sized layout and are dropped). -/
def overwriteAt : List Nat → Nat → List Nat → List Nat
  | data, _, [] => data
  | data, p, b :: rest => overwriteAt (data.set p b) (p + 1) rest

/-- Cursor::write_all. -/
def ByteCursor.writeAll (w : ByteCursor) (bytes : List Nat) : ByteCursor :=
  ⟨overwriteAt w.data w.pos bytes, w.pos + bytes.length⟩

/-- value as u8 for an i64 value. -/
def lowByte (v : Int) : Nat := (v.emod 256).toNat

/-- (value >> 8) as u8 for an i64 value (arithmetic shift, then
truncation). -/
def highByte (v : Int) : Nat := ((v.fdiv 256).emod 256).toNat

/-- MovInstruction::encode: the full opcode table from
src/assembler/ast.rs; the unreachable!() arms (operand combinations
ruled out by new) are none. -/
def MovInstruction.encode (inst : MovInstruction) (labelSet : List String)
    (valueMap : ValueMap) (w : ByteCursor) :
    Option (ByteCursor × List AsmDiag) :=
  match inst.destination, inst.source with
  | .register d, .value src =>
    match src.eval_or_zero labelSet valueMap with
    | none => none
    | some (v, errs) =>
      let low := lowByte v
      let high := highByte v
      match d with
      | .a => some (w.writeAll [0x01, low], errs)
      | .b => some (w.writeAll [0x02, low], errs)
      | .c => some (w.writeAll [0x03, low], errs)
      | .d => some (w.writeAll [0x04, low], errs)
      | .tl => some (w.writeAll [0x05, low], errs)
      | .th => some (w.writeAll [0x06, low], errs)
      | .tx => some (w.writeAll [0x05, low, 0x06, high], errs)
      | .ab => some (w.writeAll [0x01, low, 0x02, high], errs)
      | .cd => some (w.writeAll [0x03, low, 0x04, high], errs)
      | .si => some (w.writeAll [0x05, low, 0x06, high, 0x27], errs)
      | .di => some (w.writeAll [0x05, low, 0x06, high, 0x29], errs)
      | _ => none
  | .register d, .register s =>
    (match d, s with
    | .a, .b => some 0x07
    | .a, .c => some 0x08
    | .a, .d => some 0x09
    | .b, .a => some 0x0A
    | .b, .c => some 0x0B
    | .b, .d => some 0x0C
    | .c, .a => some 0x0D
    | .c, .b => some 0x0E
    | .c, .d => some 0x0F
    | .d, .a => some 0x10
    | .d, .b => some 0x11
    | .d, .c => some 0x12
    | .tl, .a => some 0x13
    | .tl, .b => some 0x14
    | .tl, .c => some 0x15
    | .tl, .d => some 0x16
    | .th, .a => some 0x17
    | .th, .b => some 0x18
    | .th, .c => some 0x19
    | .th, .d => some 0x1A
    | .a, .tl => some 0x1B
    | .b, .tl => some 0x1C
    | .c, .tl => some 0x1D
    | .d, .tl => some 0x1E
    | .a, .th => some 0x1F
    | .b, .th => some 0x20
    | .c, .th => some 0x21
    | .d, .th => some 0x22
    | .ra, .tx => some 0x23
    | .tx, .ra => some 0x24
    | .sp, .tx => some 0x25
    | .tx, .sp => some 0x26
    | .si, .tx => some 0x27
    | .tx, .si => some 0x28
    | .di, .tx => some 0x29
    | .tx, .di => some 0x2A
    | .di, .si => some 0x2B
    | .si, .di => some 0x2C
    | .si, .sp => some 0x2D
    | .di, .sp => some 0x2E
    | _, _ => none).map fun op => (w.writeAll [op], [])
  | .register d, .memory s =>
    (match d, s with
    | .a, .si => some 0x40
    | .b, .si => some 0x41
    | .c, .si => some 0x42
    | .d, .si => some 0x43
    | .a, .di => some 0x44
    | .b, .di => some 0x45
    | .c, .di => some 0x46
    | .d, .di => some 0x47
    | .a, .tx => some 0x48
    | .b, .tx => some 0x49
    | .c, .tx => some 0x4A
    | .d, .tx => some 0x4B
    | _, _ => none).map fun op => (w.writeAll [op], [])
  | .memory d, .register s =>
    (match d, s with
    | .si, .a => some 0x4C
    | .si, .b => some 0x4D
    | .si, .c => some 0x4E
    | .si, .d => some 0x4F
    | .di, .a => some 0x50
    | .di, .b => some 0x51
    | .di, .c => some 0x52
    | .di, .d => some 0x53
    | .tx, .a => some 0x54
    | .tx, .b => some 0x55
    | .tx, .c => some 0x56
    | .tx, .d => some 0x57
    | _, _ => none).map fun op => (w.writeAll [op], [])
  | _, _ => none

/-- JmpInstruction::encode: an expression target emits the 16-bit
transfer load followed by PREBRANCH and JMP TX; register targets emit
PREBRANCH plus the direct jump opcode. -/
def JmpInstruction.encode (inst : JmpInstruction) (labelSet : List String)
    (valueMap : ValueMap) (w : ByteCursor) :
    Option (ByteCursor × List AsmDiag) :=
  match inst.target with
  | .value target =>
    match target.eval_or_zero labelSet valueMap with
    | none => none
    | some (v, errs) =>
      some (w.writeAll [0x05, lowByte v, 0x06, highByte v, 0x5F, 0x60], errs)
  | .register r =>
    match r with
    | .tx => some (w.writeAll [0x5F, 0x60], [])
    | .di => some (w.writeAll [0x5F, 0x71], [])
    | _ => none

/-- The instruction statements carried by the embedding (the claims
exercise MOV and JMP). -/
inductive AsmInstruction where
  | mov (inst : MovInstruction)
  | jmp (inst : JmpInstruction)
deriving DecidableEq, Repr

/-- Instruction::emit_size. -/
def AsmInstruction.emit_size : AsmInstruction → Nat
  | .mov inst => inst.emit_size
  | .jmp inst => inst.emit_size

/-- Instruction::encode. -/
def AsmInstruction.encode (inst : AsmInstruction) (labelSet : List String)
    (valueMap : ValueMap) (w : ByteCursor) :
    Option (ByteCursor × List AsmDiag) :=
  match inst with
  | .mov inst => inst.encode labelSet valueMap w
  | .jmp inst => inst.encode labelSet valueMap w

/-- LabelValue from src/assembler/ast.rs: a positional (address) label
or a deferred expression label. -/
inductive AsmLabelValue where
  | address
  | expression (e : Expression)
deriving DecidableEq, Repr

/-- The statements reaching the layout and emission passes (Section,
Origin and Include directives are consumed earlier by process_file and
are unreachable!() in these passes). -/
inductive AsmStatement where
  | label (name : String) (value : AsmLabelValue)
  | offsetDirective (value : Option Int)
  | alignDirective (value : Option Int)
  | instruction (inst : AsmInstruction)
deriving DecidableEq, Repr

/-- Statement::emit_size: only instructions occupy bytes. -/
def AsmStatement.emit_size : AsmStatement → Nat
  | .instruction inst => inst.emit_size
  | _ => 0

/-- A raw section as accumulated by process_file: optional explicit
base plus its statements. -/
structure RawSec where
  name : String
  base : Option Nat
  statements : List AsmStatement
deriving DecidableEq, Repr

/-- A laid-out section from process_sections. -/
structure Sec where
  name : String
  base : Nat
  size : Nat
  statements : List AsmStatement
deriving DecidableEq, Repr

/-- HashMap::insert on the association list: replace the entry if the
key is present, append it otherwise. -/
def insertVal (m : ValueMap) (k : String) (v : Option Int) : ValueMap :=
  if mapContains m k then m.map fun p => if p.1 = k then (k, v) else p
  else m ++ [(k, v)]

/-- Ceiling division (u16::div_ceil). -/
def natDivCeil (a b : Nat) : Nat := (a + b - 1) / b

/-- The per-section size loop of process_sections: current_address
walks the statements (offset and align move it, with an InvalidValue
diagnostic when the directive operand does not fit u16), each emit is
added with checked_add (a SectionTooLarge diagnostic stops the walk),
and the size is the high-water mark of current_address. -/
def sectionSizeLoop (name : String) :
    List AsmStatement → Nat → Nat → List AsmDiag → Nat × List AsmDiag
  | [], size, _addr, errs => (size, errs)
  | stmt :: rest, size, addr, errs =>
    let r : Nat × List AsmDiag :=
      match stmt with
      | .offsetDirective v =>
        let val := v.getD 0
        if 0 ≤ val ∧ val < 65536 then (val.toNat, errs)
        else (addr, errs ++ [.invalidValue])
      | .alignDirective v =>
        let val := v.getD 1
        if 0 ≤ val ∧ val < 65536 then
          if val = 0 then (addr, errs ++ [.invalidValue])
          else (wrap16 (natDivCeil addr val.toNat * val.toNat), errs)
        else (addr, errs ++ [.invalidValue])
      | _ => (addr, errs)
    if r.1 + stmt.emit_size < 65536 then
      sectionSizeLoop name rest (max size (r.1 + stmt.emit_size))
        (r.1 + stmt.emit_size) r.2
    else (size, r.2 ++ [.sectionTooLarge name])

/-- The per-section part of process_sections: resolve the base (the
running default base when none is explicit), compute the size, and
advance the default base with checked_add. -/
def processSectionsAux :
    List RawSec → Nat → List AsmDiag → List Sec → List Sec × List AsmDiag
  | [], _db, errs, acc => (acc, errs)
  | raw :: rest, db, errs, acc =>
    let bu : Nat × Bool :=
      match raw.base with
      | some b => (b, false)
      | none => (db, true)
    let sz := sectionSizeLoop raw.name raw.statements 0 0 errs
    let ok := bu.1 + sz.1 < 65536
    let db2 := if ok then (if bu.2 then bu.1 + sz.1 else db) else db
    let errs2 := if ok then sz.2 else sz.2 ++ [.sectionTooLarge raw.name]
    processSectionsAux rest db2 errs2 (acc ++ [⟨raw.name, bu.1, sz.1, raw.statements⟩])

/-- The pairwise overlap check at the end of process_sections
(additions on u16, hence the explicit wrap). -/
def overlapCheck : List Sec → List AsmDiag
  | [] => []
  | first :: rest =>
    ((rest.filter fun second =>
        (decide (second.base ≥ first.base) &&
          decide (second.base ≤ wrap16 (first.base + first.size))) ||
        (decide (wrap16 (second.base + second.size) ≥ first.base) &&
          decide (wrap16 (second.base + second.size) ≤
            wrap16 (first.base + first.size)))).map fun second =>
      AsmDiag.overlappingSections first.name second.name) ++ overlapCheck rest

/-- process_sections from src/assembler/mod.rs. -/
def processSections (raws : List RawSec) (defaultBase : Nat)
    (errs : List AsmDiag) : List Sec × List AsmDiag :=
  let r := processSectionsAux raws defaultBase errs []
  (r.1, r.2 ++ overlapCheck r.1)

/-- The positional pass of evaluate_labels over one section's
statements: address labels are inserted at the current address,
expression labels are queued, offset and align directives move the
current address (u16 arithmetic). -/
def positionalStmts (base : Nat) :
    List AsmStatement → Nat → ValueMap → List (String × Expression) →
      ValueMap × List (String × Expression)
  | [], _addr, vals, exprs => (vals, exprs)
  | stmt :: rest, addr, vals, exprs =>
    let r : Nat × ValueMap × List (String × Expression) :=
      match stmt with
      | .label name .address =>
        (addr, insertVal vals name (some (Int.ofNat addr)), exprs)
      | .label name (.expression e) => (addr, vals, exprs ++ [(name, e)])
      | .offsetDirective v =>
        (wrap16 (base + ((v.getD 0).emod 65536).toNat), vals, exprs)
      | .alignDirective v =>
        let a := ((v.getD 0).emod 65536).toNat
        (if a > 0 then wrap16 (natDivCeil addr a * a) else addr, vals, exprs)
      | .instruction _ => (addr, vals, exprs)
    positionalStmts base rest (wrap16 (r.1 + stmt.emit_size)) r.2.1 r.2.2

/-- The positional pass over all sections. -/
def positionalSections :
    List Sec → ValueMap → List (String × Expression) →
      ValueMap × List (String × Expression)
  | [], vals, exprs => (vals, exprs)
  | sec :: rest, vals, exprs =>
    let r := positionalStmts sec.base sec.statements sec.base vals exprs
    positionalSections rest r.1 r.2

/-- One iteration of the body of the expression-label loop for a single
pending pair: evaluate against the current map; a success stores the
value, a hard error stores None (divide-by-zero and undefined-symbol
also record a diagnostic), a missing reference leaves the pair
pending. -/
def passStep (name : String) (e : Expression) (ls : List String)
    (vals : ValueMap) (errs : List AsmDiag) : ValueMap × List AsmDiag :=
  if mapContains vals name then (vals, errs)
  else
    match e.try_eval ls vals with
    | .ok v => (insertVal vals name (some v), errs)
    | .error .invalidLiteralValue => (insertVal vals name none, errs)
    | .error .errorInReferenceEval => (insertVal vals name none, errs)
    | .error .divideByZero => (insertVal vals name none, errs ++ [.divideByZero])
    | .error (.undefinedSymbol n) =>
      (insertVal vals name none, errs ++ [.undefinedSymbol n])
    | .error .missingReferenceValue => (vals, errs)

/-- One full pass of the expression-label loop over all queued
pairs. -/
def evalPassOne :
    List (String × Expression) → List String → ValueMap → List AsmDiag →
      ValueMap × List AsmDiag
  | [], _, vals, errs => (vals, errs)
  | p :: rest, ls, vals, errs =>
    evalPassOne rest ls (passStep p.1 p.2 ls vals errs).1
      (passStep p.1 p.2 ls vals errs).2

/-- The expression-label fixed-point loop of evaluate_labels.  The
source loop is unbounded; here it runs on fuel, returning the final
map, the diagnostics, the number of passes performed and whether the
loop reached its break (a continuing pass strictly grows the map, so
fuel one larger than the number of queued pairs always reaches the
break; the callers pass exactly that).  lastCount mirrors
last_evaluated_count, seeded with the map size. -/
def evalLoop :
    Nat → List (String × Expression) → List String → ValueMap →
      List AsmDiag → Nat → Nat → ValueMap × List AsmDiag × Nat × Bool
  | 0, _, _, vals, errs, _, passes => (vals, errs, passes, false)
  | fuel + 1, exprs, ls, vals, errs, lastCount, passes =>
    if lastCount < (evalPassOne exprs ls vals errs).1.length then
      evalLoop fuel exprs ls (evalPassOne exprs ls vals errs).1
        (evalPassOne exprs ls vals errs).2
        (evalPassOne exprs ls vals errs).1.length (passes + 1)
    else
      ((evalPassOne exprs ls vals errs).1, (evalPassOne exprs ls vals errs).2,
        passes + 1, true)

/-- The cyclic-reference check after the loop: every queued pair whose
name never made it into the map is diagnosed. -/
def cyclicDiags (exprs : List (String × Expression)) (vals : ValueMap) :
    List AsmDiag :=
  (exprs.filter fun p => !(mapContains vals p.1)).map fun p =>
    AsmDiag.cyclicExpression p.1

/-- evaluate_labels from src/assembler/mod.rs: positional pass,
expression loop, cyclic check. -/
def evaluateLabels (sections : List Sec) (ls : List String)
    (errs : List AsmDiag) : ValueMap × List AsmDiag :=
  let p := positionalSections sections [] []
  let r := evalLoop (p.2.length + 1) p.2 ls p.1 errs p.1.length 0
  (r.1, r.2.1 ++ cyclicDiags p.2 r.1)

/-- Stable insertion into a base-sorted section list (equal bases keep
their original order, as Vec::sort_by_key is stable). -/
def insertByBase (s : Sec) : List Sec → List Sec
  | [] => [s]
  | t :: rest => if s.base < t.base then s :: t :: rest else t :: insertByBase s rest

/-- sections.sort_by_key(base). -/
def sortByBase (l : List Sec) : List Sec :=
  l.foldl (fun acc s => insertByBase s acc) []

/-- Emission of a single statement at the cursor: labels emit nothing,
offset and align reposition the cursor (a directive with an invalid
literal panics via unwrap, modeled as none), instructions encode. -/
def emitStatement (secBase startAddr : Nat) (ls : List String)
    (vals : ValueMap) (w : ByteCursor) :
    AsmStatement → Option (ByteCursor × List AsmDiag)
  | .label _ _ => some (w, [])
  | .offsetDirective v =>
    match v with
    | none => none
    | some val =>
      some (⟨w.data, wrap16 (secBase - startAddr + (val.emod 65536).toNat)⟩, [])
  | .alignDirective v =>
    match v with
    | none => none
    | some val =>
      let a := (val.emod (2 ^ 64)).toNat
      if a > 0 then some (⟨w.data, natDivCeil w.pos a * a⟩, []) else some (w, [])
  | .instruction inst => inst.encode ls vals w

/-- Emission of a statement list, threading the cursor and the
diagnostics. -/
def emitStmtList (secBase startAddr : Nat) (ls : List String)
    (vals : ValueMap) :
    List AsmStatement → ByteCursor → List AsmDiag →
      Option (ByteCursor × List AsmDiag)
  | [], w, errs => some (w, errs)
  | stmt :: rest, w, errs =>
    match emitStatement secBase startAddr ls vals w stmt with
    | none => none
    | some r => emitStmtList secBase startAddr ls vals rest r.1 (errs ++ r.2)

/-- Emission of all sections: each starts at position base minus start
address in the shared buffer. -/
def emitSections (startAddr : Nat) (ls : List String) (vals : ValueMap) :
    List Sec → ByteCursor → List AsmDiag → Option (ByteCursor × List AsmDiag)
  | [], w, errs => some (w, errs)
  | sec :: rest, w, errs =>
    match emitStmtList sec.base startAddr ls vals sec.statements
        ⟨w.data, sec.base - startAddr⟩ errs with
    | none => none
    | some r => emitSections startAddr ls vals rest r.1 r.2

/-- assemble from src/assembler/mod.rs, taken after parsing: the input
is the raw section list and label set that process_file builds from the
source text (the lexer and parser are not embedded).  Layout the
sections, evaluate the labels, and on a diagnostic-free program emit
the sorted sections into a zeroed buffer spanning start to end; none
models the panicking paths (unwrap on directives that never carry an
invalid literal here, and the unreachable encode arms). -/
def assembleAst (raws : List RawSec) (defaultBase : Nat)
    (labelSet : List String) : Option (Except (List AsmDiag) (Nat × List Nat)) :=
  let ps := processSections raws defaultBase []
  let ev := evaluateLabels ps.1 labelSet ps.2
  if ev.2 ≠ [] then some (.error ev.2)
  else if ps.1.isEmpty then some (.ok (0, []))
  else
    let sorted := sortByBase ps.1
    match sorted.head?, sorted.getLast? with
    | some first, some last =>
      let startAddr := first.base
      let endAddr := last.base + last.size
      let data0 : List Nat := List.replicate (endAddr - startAddr) 0
      match emitSections startAddr labelSet ev.1 sorted ⟨data0, 0⟩ [] with
      | none => none
      | some r =>
        if r.2 = [] then some (.ok (startAddr, r.1.data)) else some (.error r.2)
    | _, _ => none

/-- The potential of a value map against the queued expression pairs:
how many pairs do not yet have their name in the map.  Each continuing
iteration of the expression loop strictly decreases it. -/
def phi (exprs : List (String × Expression)) (vals : ValueMap) : Nat :=
  (exprs.filter fun p => !(mapContains vals p.1)).length

/-- The statement list the two-instruction example program intends (an
address label start, a MOV of the immediate 1 into a, a JMP to start),
built directly at the AST level: the repository's lexer and parser
reject the concrete source spelling of it, so no parse of that text
exists. -/
def c9Statements : List AsmStatement :=
  [.label "start" .address,
   .instruction (.mov ⟨.register .a, .value (.literal (some 1)), 2⟩),
   .instruction (.jmp ⟨.value (.identifier "start"), 6⟩)]

/-- The raw code section at explicit base 0 holding c9Statements. -/
def c9Raw : RawSec := ⟨"code", some 0, c9Statements⟩

/-!
### src/assembler/lexer.rs and emit_lexer_errors

Text is modeled as List Char and the source's byte counts as char
counts: every consumption in the source is a whole number of chars, so
the induced advancement through the text is identical.
-/

/-- PunctuationKind from src/assembler/lexer.rs. -/
inductive PunctuationKind where
  | comma
  | colon
  | equalSign
  | plusSign
  | minusSign
  | asterisk
  | slash
  | percentSign
  | exclamationMark
  | ampersand
  | verticalBar
  | accent
  | doubleLessThanSign
  | trippleGreaterThanSign
  | doubleGreaterThanSign
  | openingParenthesis
  | closingParenthesis
  | openingBracket
  | closingBracket
deriving DecidableEq, Repr

/-- DirectiveKind from src/assembler/lexer.rs (Section and Include are
Lean keywords, hence the Dir suffix on those two constructor names). -/
inductive DirectiveKind where
  | offset
  | align
  | origin
  | sectionDir
  | includeDir
deriving DecidableEq, Repr

/-- IoRegisterKind from src/assembler/lexer.rs. -/
inductive IoRegisterKind where
  | uartData
  | uartControl
  | audioData
  | controllerData
  | vgaStatus
  | gpio
deriving DecidableEq, Repr

/-- MnemonicKind from src/assembler/lexer.rs (In and Break clash with
Lean syntax and are named inp and brk, like in the Instruction
embedding). -/
inductive MnemonicKind where
  | nop
  | cnop
  | mov
  | inc
  | incc
  | dec
  | inp
  | out
  | brk
  | lodsb
  | stosb
  | call
  | ret
  | callBd
  | retBd
  | jmp
  | jo
  | jno
  | js
  | jns
  | jz
  | jnz
  | je
  | jne
  | jc
  | jnc
  | jnae
  | jb
  | jae
  | jnb
  | jbe
  | jna
  | ja
  | jnbe
  | jl
  | jnge
  | jge
  | jnl
  | jle
  | jng
  | jg
  | jnle
  | jlc
  | jnlc
  | push
  | pop
  | clc
  | shl
  | shr
  | add
  | addc
  | addac
  | sub
  | subb
  | subae
  | and
  | or
  | xor
  | not
  | cmp
  | test
deriving DecidableEq, Repr

/-- ParseStringError from src/assembler/lexer.rs (the byte range
payload of InvalidEscapeSequence is a source span, dropped like all
spans in this embedding). -/
inductive ParseStringError where
  | missingClosingQuote
  | invalidEscapeSequence
deriving DecidableEq, Repr

/-- Jam1Token from src/assembler/lexer.rs (the ParseIntError payload of
InvalidIntegerLiteral is dropped). -/
inductive Jam1Token where
  | newLine
  | comment
  | punctuation (kind : PunctuationKind)
  | directive (kind : DirectiveKind)
  | register (kind : RegisterKind)
  | ioRegister (kind : IoRegisterKind)
  | mnemonic (kind : MnemonicKind)
  | identifier (name : String)
  | integerLiteral (value : Int)
  | stringLiteral (value : String)
  | invalidDirective (name : String)
  | invalidIntegerLiteral
  | invalidStringLiteral (errors : List ParseStringError)
  | invalidChar (c : Char)
deriving DecidableEq, Repr

/-- langbox ReadTokenResult; consumed_bytes counts chars, see the
section comment. -/
structure ReadTokenResult where
  token : Jam1Token
  consumed_bytes : Nat
deriving DecidableEq, Repr

/-- PUNCTUATION_MAP from src/assembler/lexer.rs, in source order (note
there is no entry for the hash character). -/
def punctuationMap : List (List Char × PunctuationKind) :=
  [([','], .comma),
   ([':'], .colon),
   (['='], .equalSign),
   (['+'], .plusSign),
   (['-'], .minusSign),
   (['*'], .asterisk),
   (['/'], .slash),
   (['%'], .percentSign),
   (['!'], .exclamationMark),
   (['&'], .ampersand),
   (['|'], .verticalBar),
   (['^'], .accent),
   (['<', '<'], .doubleLessThanSign),
   (['>', '>', '>'], .trippleGreaterThanSign),
   (['>', '>'], .doubleGreaterThanSign),
   (['('], .openingParenthesis),
   ([')'], .closingParenthesis),
   (['['], .openingBracket),
   ([']'], .closingBracket)]

/-- DIRECTIVE_MAP from src/assembler/lexer.rs. -/
def directiveMap : List (String × DirectiveKind) :=
  [("offset", .offset),
   ("align", .align),
   ("origin", .origin),
   ("section", .sectionDir),
   ("include", .includeDir)]

/-- REGISTER_MAP from src/assembler/lexer.rs. -/
def registerMap : List (String × RegisterKind) :=
  [("a", .a), ("b", .b), ("c", .c), ("d", .d), ("tl", .tl), ("th", .th),
   ("si", .si), ("di", .di), ("tx", .tx), ("ab", .ab), ("cd", .cd),
   ("ra", .ra), ("sp", .sp)]

/-- IO_REGISTER_MAP from src/assembler/lexer.rs. -/
def ioRegisterMap : List (String × IoRegisterKind) :=
  [("uart_data", .uartData),
   ("uart_ctrl", .uartControl),
   ("audio_data", .audioData),
   ("cntrl_data", .controllerData),
   ("vga", .vgaStatus),
   ("gpio", .gpio)]

/-- MNEMONIC_MAP from src/assembler/lexer.rs, in source order. -/
def mnemonicMap : List (String × MnemonicKind) :=
  [("nop", .nop), ("cnop", .cnop), ("mov", .mov), ("inc", .inc),
   ("incc", .incc), ("dec", .dec), ("in", .inp), ("out", .out),
   ("break", .brk), ("lodsb", .lodsb), ("stosb", .stosb), ("call", .call),
   ("ret", .ret), ("callbd", .callBd), ("retbd", .retBd), ("jmp", .jmp),
   ("jo", .jo), ("jno", .jno), ("js", .js), ("jns", .jns), ("jz", .jz),
   ("jnz", .jnz), ("je", .je), ("jne", .jne), ("jc", .jc), ("jnc", .jnc),
   ("jnae", .jnae), ("jb", .jb), ("jae", .jae), ("jnb", .jnb),
   ("jbe", .jbe), ("jna", .jna), ("ja", .ja), ("jnbe", .jnbe),
   ("jl", .jl), ("jnge", .jnge), ("jge", .jge), ("jnl", .jnl),
   ("jle", .jle), ("jng", .jng), ("jg", .jg), ("jnle", .jnle),
   ("jlc", .jlc), ("jnlc", .jnlc), ("push", .push), ("pop", .pop),
   ("clc", .clc), ("shl", .shl), ("shr", .shr), ("add", .add),
   ("addc", .addc), ("addac", .addac), ("sub", .sub), ("subb", .subb),
   ("subae", .subae), ("and", .and), ("or", .or), ("xor", .xor),
   ("not", .not), ("cmp", .cmp), ("test", .test)]

/-- The A-Z a-z underscore start set shared by the identifier and
directive readers. -/
def isIdentStart (c : Char) : Bool :=
  (decide ('A' ≤ c) && decide (c ≤ 'Z')) ||
  (decide ('a' ≤ c) && decide (c ≤ 'z')) || decide (c = '_')

/-- The A-Z a-z 0-9 underscore continuation set. -/
def isIdentCont (c : Char) : Bool :=
  isIdentStart c || (decide ('0' ≤ c) && decide (c ≤ '9'))

/-- 0-9. -/
def isDigitChar (c : Char) : Bool :=
  decide ('0' ≤ c) && decide (c ≤ '9')

/-- The value of one digit char in any radix up to 36, mirroring
from_str_radix digit handling. -/
def digitVal (c : Char) : Option Nat :=
  if decide ('0' ≤ c) && decide (c ≤ '9') then some (c.toNat - '0'.toNat)
  else if decide ('a' ≤ c) && decide (c ≤ 'z') then
    some (c.toNat - 'a'.toNat + 10)
  else if decide ('A' ≤ c) && decide (c ≤ 'Z') then
    some (c.toNat - 'A'.toNat + 10)
  else none

/-- Accumulating loop of i64::from_str_radix over the digit chars
(error on an invalid digit or when the value exceeds i64::MAX). -/
def parseIntAux (radix : Nat) : List Char → Nat → Option Nat
  | [], acc => some acc
  | c :: rest, acc =>
    match digitVal c with
    | some d =>
      if d < radix then
        if acc * radix + d ≤ 2 ^ 63 - 1 then
          parseIntAux radix rest (acc * radix + d)
        else none
      else none
    | none => none

/-- i64::from_str_radix (no sign can occur: the lexed slice starts with
a digit). -/
def parseIntRadix (radix : Nat) (digits : List Char) : Option Int :=
  match digits with
  | [] => none
  | _ => (parseIntAux radix digits 0).map Int.ofNat

/-- read_comment_token from src/assembler/lexer.rs. -/
def read_comment_token (text : List Char) : Option ReadTokenResult :=
  if text.take 2 = ['/', '/'] then
    some ⟨.comment,
      ((text.drop 2).takeWhile fun c => !(decide (c = '\n'))).length + 2⟩
  else if text.take 1 = [';'] then
    some ⟨.comment,
      ((text.drop 1).takeWhile fun c => !(decide (c = '\n'))).length + 1⟩
  else none

/-- read_punctuation_token: first map entry whose pattern is a prefix
of the text. -/
def read_punctuation_token (text : List Char) : Option ReadTokenResult :=
  (punctuationMap.find? fun p => text.take p.1.length = p.1).map fun p =>
    ⟨.punctuation p.2, p.1.length⟩

/-- read_directive_token: a dot followed by identifier chars, looked up
in the directive map, InvalidDirective when absent. -/
def read_directive_token (text : List Char) : Option ReadTokenResult :=
  match text with
  | '.' :: rest =>
    let ident := rest.takeWhile isIdentCont
    match directiveMap.find? fun p => p.1 = String.mk ident with
    | some p => some ⟨.directive p.2, ident.length + 1⟩
    | none => some ⟨.invalidDirective (String.mk ident), ident.length + 1⟩
  | _ => none

/-- read_identifier_token: an identifier, tried lowercase against the
register, io-register and mnemonic maps in that order (Char.toLower is
ASCII-only, like cow_to_ascii_lowercase). -/
def read_identifier_token (text : List Char) : Option ReadTokenResult :=
  match text with
  | c :: rest =>
    if isIdentStart c then
      let ident := c :: rest.takeWhile isIdentCont
      let lower := String.mk (ident.map Char.toLower)
      match registerMap.find? fun p => p.1 = lower with
      | some p => some ⟨.register p.2, ident.length⟩
      | none =>
        match ioRegisterMap.find? fun p => p.1 = lower with
        | some p => some ⟨.ioRegister p.2, ident.length⟩
        | none =>
          match mnemonicMap.find? fun p => p.1 = lower with
          | some p => some ⟨.mnemonic p.2, ident.length⟩
          | none => some ⟨.identifier (String.mk ident), ident.length⟩
    else none
  | [] => none

/-- read_integer_literal_token: digit-led word, radix prefix stripped,
underscores removed, parsed as i64. -/
def read_integer_literal_token (text : List Char) : Option ReadTokenResult :=
  match text with
  | c :: rest =>
    if isDigitChar c then
      let lit := c :: rest.takeWhile isIdentCont
      let pr : List Char × Nat :=
        if lit.take 2 = ['0', 'x'] then (lit.drop 2, 16)
        else if lit.take 2 = ['0', 'X'] then (lit.drop 2, 16)
        else if lit.take 2 = ['0', 'o'] then (lit.drop 2, 8)
        else if lit.take 2 = ['0', 'O'] then (lit.drop 2, 8)
        else if lit.take 2 = ['0', 'b'] then (lit.drop 2, 2)
        else if lit.take 2 = ['0', 'B'] then (lit.drop 2, 2)
        else (lit, 10)
      match parseIntRadix pr.2 (pr.1.filter fun c => !(decide (c = '_'))) with
      | some v => some ⟨.integerLiteral v, lit.length⟩
      | none => some ⟨.invalidIntegerLiteral, lit.length⟩
    else none
  | [] => none

/-- The outcome of process_escape_sequence for one escape: a char to
append plus the chars consumed after the backslash, an error plus the
chars consumed, or the panic on an unrepresentable escaped code
point. -/
inductive EscapeOutcome where
  | push (c : Char) (used : Nat)
  | fail (e : ParseStringError) (used : Nat)
  | panic
deriving DecidableEq, Repr

/-- process_escape_sequence from src/assembler/lexer.rs over the chars
after the backslash (the two or four hex digit chars are parsed like
u8/u16::from_str_radix; char::from_u32 on a surrogate panics). -/
def processEscape : List Char → EscapeOutcome
  | [] => .fail .missingClosingQuote 0
  | ec :: rest =>
    if ec = 'r' then .push '\r' 1
    else if ec = 'n' then .push '\n' 1
    else if ec = 't' then .push '\t' 1
    else if ec = '0' then .push (Char.ofNat 0) 1
    else if ec = '"' then .push '"' 1
    else if ec = '\\' then .push '\\' 1
    else if ec = 'x' then
      match rest with
      | d1 :: d2 :: _ =>
        match parseIntRadix 16 [d1, d2] with
        | some v => .push (Char.ofNat v.toNat) 3
        | none => .fail .invalidEscapeSequence 3
      | _ => .fail .missingClosingQuote 0
    else if ec = 'u' then
      match rest with
      | d1 :: d2 :: d3 :: d4 :: _ =>
        match parseIntRadix 16 [d1, d2, d3, d4] with
        | some v =>
          if 0xD800 ≤ v.toNat ∧ v.toNat < 0xE000 then .panic
          else .push (Char.ofNat v.toNat) 5
        | none => .fail .invalidEscapeSequence 5
      | _ => .fail .missingClosingQuote 0
    else if ec = '\n' then .fail .missingClosingQuote 1
    else .fail .invalidEscapeSequence 1

/-- The character loop of read_string_literal_token: remaining text,
index of the current char from the start of the token, accumulated
literal and errors; total is the whole text length for the
unterminated case.  none models the escape panic. -/
def stringLoop (total : Nat) :
    List Char → Nat → List Char → List ParseStringError →
      Option ReadTokenResult
  | [], _idx, _lit, errs =>
    some ⟨.invalidStringLiteral (errs ++ [.missingClosingQuote]), total⟩
  | c :: rest, idx, lit, errs =>
    if c = '\\' then
      match processEscape rest with
      | .push pc used =>
        stringLoop total (rest.drop used) (idx + 1 + used) (lit ++ [pc]) errs
      | .fail e used =>
        if e = .missingClosingQuote then
          some ⟨.invalidStringLiteral (errs ++ [e]), idx + 1⟩
        else
          stringLoop total (rest.drop used) (idx + 1 + used) lit (errs ++ [e])
      | .panic => none
    else if c = '"' then
      if errs.isEmpty then some ⟨.stringLiteral (String.mk lit), idx + 1⟩
      else some ⟨.invalidStringLiteral errs, idx + 1⟩
    else if c = '\n' then
      some ⟨.invalidStringLiteral (errs ++ [.missingClosingQuote]), idx⟩
    else
      stringLoop total rest (idx + 1) (lit ++ [c]) errs
termination_by text => text.length
decreasing_by
  all_goals simp [List.length_drop]
  all_goals omega

/-- read_string_literal_token from src/assembler/lexer.rs; the inner
none models the escape panic. -/
def read_string_literal_token (text : List Char) :
    Option (Option ReadTokenResult) :=
  match text with
  | '"' :: rest => some (stringLoop text.length rest 1 [] [])
  | _ => none

/-- Jam1TokenReader::read_token: newline first, then the readers in
source order, InvalidChar as the fallback.  none is the panic on empty
text, which the caller never passes. -/
def read_token (text : List Char) : Option ReadTokenResult :=
  match text with
  | [] => none
  | c :: _ =>
    if c = '\n' then some ⟨.newLine, 1⟩
    else
      match read_comment_token text with
      | some r => some r
      | none =>
        match read_punctuation_token text with
        | some r => some r
        | none =>
          match read_directive_token text with
          | some r => some r
          | none =>
            match read_identifier_token text with
            | some r => some r
            | none =>
              match read_integer_literal_token text with
              | some r => some r
              | none =>
                match read_string_literal_token text with
                | some r => r
                | none => some ⟨.invalidChar c, 1⟩

/-- Modelled from the spec of the external langbox crate (a dependency,
not in src): under whitespace_mode::RemoveKeepNewLine the lexer skips
whitespace other than newline between tokens. -/
def isSkippableWs (c : Char) : Bool :=
  decide (c = ' ') || decide (c = '\t') || decide (c = '\r')

/-- Modelled from the spec of the external langbox crate (a dependency,
not in src): the token stream repeatedly skips whitespace and applies
read_token until the text is exhausted.  Every step consumes at least
one char, so fuel one larger than the text length always finishes;
none covers fuel exhaustion and the read_token panic path. -/
def lexTokens : Nat → List Char → Option (List Jam1Token)
  | 0, _ => none
  | fuel + 1, text =>
    match text.dropWhile isSkippableWs with
    | [] => some []
    | t =>
      match read_token t with
      | none => none
      | some r =>
        match lexTokens fuel (t.drop r.consumed_bytes) with
        | none => none
        | some rest => some (r.token :: rest)

/-- The diagnostics for one invalid string literal. -/
def stringErrDiags : List ParseStringError → List AsmDiag
  | [] => []
  | .missingClosingQuote :: rest =>
    .unclosedStringLiteral :: stringErrDiags rest
  | .invalidEscapeSequence :: rest =>
    .invalidEscapeSequence :: stringErrDiags rest

/-- The walk of emit_lexer_errors; the flag says whether the previous
token was an InvalidChar, so that a maximal run of them yields a single
InvalidChars diagnostic, as the source's inner peek loop does. -/
def emitLexAux : List Jam1Token → Bool → Bool × List AsmDiag
  | [], _ => (true, [])
  | t :: rest, inRun =>
    match t with
    | .invalidDirective _ =>
      (false, .invalidDirective :: (emitLexAux rest false).2)
    | .invalidIntegerLiteral =>
      ((emitLexAux rest false).1,
        .invalidIntegerLiteral :: (emitLexAux rest false).2)
    | .invalidStringLiteral errs =>
      ((emitLexAux rest false).1, stringErrDiags errs ++ (emitLexAux rest false).2)
    | .invalidChar _ =>
      if inRun then (false, (emitLexAux rest true).2)
      else (false, .invalidChars :: (emitLexAux rest true).2)
    | _ => emitLexAux rest false

/-- emit_lexer_errors from src/assembler/mod.rs: the can-parse flag and
the pushed diagnostics (process_file parses a line only when the flag
is true, and assemble succeeds only with no diagnostics at all). -/
def emitLexerErrors (toks : List Jam1Token) : Bool × List AsmDiag :=
  emitLexAux toks false

/-- The decisive line of the claim's source program. -/
def c9SourceLine : List Char := "start: mov a,#1".toList


/-- The shift loads the old stage1 into stage2. -/
@[simp] theorem shiftStages_stage2 (s : Sys) :
    (shiftStages s).cpu.stage2 = s.cpu.stage1 := rfl

/-- The shift leaves stage0 unchanged. -/
@[simp] theorem shiftStages_stage0 (s : Sys) :
    (shiftStages s).cpu.stage0 = s.cpu.stage0 := rfl

/-!
### Helper lemmas
-/

/-- Testing bit 7 with a bitwise and against 0x80 is, for a byte-sized
value, the same as comparing against 128. -/
theorem and_128_ne_zero_iff {x : Nat} (hx : x < 256) :
    (x &&& 128 ≠ 0) ↔ 128 ≤ x := by
  have h : x &&& 128 = (x.testBit 7).toNat * 128 := by
    have := Nat.and_two_pow x 7
    simpa using this
  rw [h, Nat.testBit_to_div_mod]
  rcases Nat.lt_or_ge x 128 with h1 | h1
  · have : x / 128 = 0 := Nat.div_eq_of_lt h1
    simp [this]
    omega
  · have : x / 128 = 1 := by omega
    simp [this]
    omega

/-- Arithmetic core of the C1 comparison: the flag expressions computed
by alu_stage2 agree with the reference formulas of the specification
for byte-sized inputs and a carry-in of at most 1. -/
theorem aluFlagHelper (L R C : Nat) (hl : L < 256) (hr : R < 256)
    (hc : C ≤ 1) :
    decide ((L + R + C) % 65536 > 255) = decide (L + R + C > 255)
  ∧ decide ((L + R + C) % 65536 % 256 = 0) = decide ((L + R + C) % 256 = 0)
  ∧ decide ((L + R + C) % 65536 % 256 &&& 128 ≠ 0)
      = decide (128 ≤ (L + R + C) % 256)
  ∧ (decide (L &&& 128 ≠ 0) == decide (R &&& 128 ≠ 0) &&
        decide (L &&& 128 ≠ 0) != decide ((L + R + C) % 65536 % 256 &&& 128 ≠ 0))
      = decide ((128 ≤ L ↔ 128 ≤ R) ∧ ¬(128 ≤ L ↔ 128 ≤ (L + R + C) % 256)) := by
  have hlt : L + R + C < 65536 := by omega
  rw [Nat.mod_eq_of_lt hlt]
  have hres : (L + R + C) % 256 < 256 := Nat.mod_lt _ (by omega)
  refine ⟨rfl, rfl, ?_, ?_⟩
  · rw [decide_eq_decide]
    exact and_128_ne_zero_iff hres
  · rw [show decide (L &&& 128 ≠ 0) = decide (128 ≤ L) by
        rw [decide_eq_decide]; exact and_128_ne_zero_iff hl,
      show decide (R &&& 128 ≠ 0) = decide (128 ≤ R) by
        rw [decide_eq_decide]; exact and_128_ne_zero_iff hr,
      show decide ((L + R + C) % 256 &&& 128 ≠ 0)
          = decide (128 ≤ (L + R + C) % 256) by
        rw [decide_eq_decide]; exact and_128_ne_zero_iff hres]
    by_cases h1 : 128 ≤ L <;> by_cases h2 : 128 ≤ R <;>
      by_cases h3 : 128 ≤ (L + R + C) % 256 <;> simp [h1, h2, h3]

/-- Gpr writes do not touch the pipeline registers. -/
@[simp] theorem setGpr_stage0 (cpu : Cpu) (g : Gpr) (v : Nat) :
    (cpu.setGpr g v).stage0 = cpu.stage0 := by cases g <;> rfl

/-- Gpr writes do not touch the pipeline registers. -/
@[simp] theorem setGpr_stage1 (cpu : Cpu) (g : Gpr) (v : Nat) :
    (cpu.setGpr g v).stage1 = cpu.stage1 := by cases g <;> rfl

/-- Spr writes do not touch the pipeline registers. -/
@[simp] theorem setSpr_stage0 (cpu : Cpu) (r : Spr) (v : Nat) :
    (cpu.setSpr r v).stage0 = cpu.stage0 := by cases r <;> rfl

/-- Spr writes do not touch the pipeline registers. -/
@[simp] theorem setSpr_stage1 (cpu : Cpu) (r : Spr) (v : Nat) :
    (cpu.setSpr r v).stage1 = cpu.stage1 := by cases r <;> rfl

/-- Spr increments do not touch the pipeline registers. -/
@[simp] theorem incSpr_stage0 (cpu : Cpu) (r : Spr) :
    (cpu.incSpr r).stage0 = cpu.stage0 := by simp [Cpu.incSpr]

/-- Spr increments do not touch the pipeline registers. -/
@[simp] theorem incSpr_stage1 (cpu : Cpu) (r : Spr) :
    (cpu.incSpr r).stage1 = cpu.stage1 := by simp [Cpu.incSpr]

/-- Spr decrements do not touch the pipeline registers. -/
@[simp] theorem decSpr_stage0 (cpu : Cpu) (r : Spr) :
    (cpu.decSpr r).stage0 = cpu.stage0 := by simp [Cpu.decSpr]

/-- Spr decrements do not touch the pipeline registers. -/
@[simp] theorem decSpr_stage1 (cpu : Cpu) (r : Spr) :
    (cpu.decSpr r).stage1 = cpu.stage1 := by simp [Cpu.decSpr]

/-- Word stores do not touch the pipeline registers. -/
@[simp] theorem storeWord_stage0 (cpu : Cpu) (tgt : StoreWordTarget) (v : Nat) :
    (cpu.storeWord tgt v).stage0 = cpu.stage0 := by
  cases tgt <;> simp [Cpu.storeWord]

/-- Word stores do not touch the pipeline registers. -/
@[simp] theorem storeWord_stage1 (cpu : Cpu) (tgt : StoreWordTarget) (v : Nat) :
    (cpu.storeWord tgt v).stage1 = cpu.stage1 := by
  cases tgt <;> simp [Cpu.storeWord]

/-- Jumps do not touch the pipeline registers. -/
@[simp] theorem jumpTo_stage0 (cpu : Cpu) (t : JumpTarget) :
    (cpu.jumpTo t).stage0 = cpu.stage0 := by cases t <;> rfl

/-- Jumps do not touch the pipeline registers. -/
@[simp] theorem jumpTo_stage1 (cpu : Cpu) (t : JumpTarget) :
    (cpu.jumpTo t).stage1 = cpu.stage1 := by cases t <;> rfl

/-- The PC/RA swap does not touch the pipeline registers. -/
@[simp] theorem flipPcRa_stage0 (cpu : Cpu) :
    cpu.flipPcRa.stage0 = cpu.stage0 := rfl

/-- The PC/RA swap does not touch the pipeline registers. -/
@[simp] theorem flipPcRa_stage1 (cpu : Cpu) :
    cpu.flipPcRa.stage1 = cpu.stage1 := rfl

/-- The ALU writeback does not touch the pipeline registers. -/
@[simp] theorem aluStage2_stage0 (cpu : Cpu) (t : Option Gpr) (co : Option Nat) :
    (cpu.aluStage2 t co).1.stage0 = cpu.stage0 := by
  cases t <;> simp [Cpu.aluStage2]

/-- The ALU writeback does not touch the pipeline registers. -/
@[simp] theorem aluStage2_stage1 (cpu : Cpu) (t : Option Gpr) (co : Option Nat) :
    (cpu.aluStage2 t co).1.stage1 = cpu.stage1 := by
  cases t <;> simp [Cpu.aluStage2]

/-- The stage-1 shift setup does not touch the pipeline registers. -/
@[simp] theorem shiftOpStage1_stage0 (cpu : Cpu) (t : Gpr)
    (op : Nat → Nat → Nat × Bool) :
    (cpu.shiftOpStage1 t op).1.stage0 = cpu.stage0 := by
  unfold Cpu.shiftOpStage1
  rcases op (cpu.getGpr t)
      (if { cpu with rhsLatch := 0 }.flags.logicalCarry then 1 else 0) with ⟨l, c⟩
  rfl

/-- The stage-1 shift setup does not touch the pipeline registers. -/
@[simp] theorem shiftOpStage1_stage1 (cpu : Cpu) (t : Gpr)
    (op : Nat → Nat → Nat × Bool) :
    (cpu.shiftOpStage1 t op).1.stage1 = cpu.stage1 := by
  unfold Cpu.shiftOpStage1
  rcases op (cpu.getGpr t)
      (if { cpu with rhsLatch := 0 }.flags.logicalCarry then 1 else 0) with ⟨l, c⟩
  rfl

/-- The stage-1 logic setup does not touch the pipeline registers. -/
@[simp] theorem logicOpStage1_stage0 (cpu : Cpu) (a b : Gpr)
    (op : Nat → Nat → Nat) :
    (cpu.logicOpStage1 a b op).stage0 = cpu.stage0 := rfl

/-- The stage-1 logic setup does not touch the pipeline registers. -/
@[simp] theorem logicOpStage1_stage1 (cpu : Cpu) (a b : Gpr)
    (op : Nat → Nat → Nat) :
    (cpu.logicOpStage1 a b op).stage1 = cpu.stage1 := rfl

/-- The stage-1 arithmetic setup does not touch the pipeline
registers. -/
@[simp] theorem arithmeticOpStage1_stage0 (cpu : Cpu) (a b : Gpr)
    (inv : Bool) :
    (cpu.arithmeticOpStage1 a b inv).stage0 = cpu.stage0 := rfl

/-- The stage-1 arithmetic setup does not touch the pipeline
registers. -/
@[simp] theorem arithmeticOpStage1_stage1 (cpu : Cpu) (a b : Gpr)
    (inv : Bool) :
    (cpu.arithmeticOpStage1 a b inv).stage1 = cpu.stage1 := rfl

/-- Stores do not touch the pipeline registers. -/
@[simp] theorem store_stage0 (cpu : Cpu) (mem : Memory) (vga : Vga)
    (tgt : StoreTarget) (v : Nat) :
    (cpu.store mem vga tgt v).2.1.stage0 = cpu.stage0 := by
  cases tgt <;> simp [Cpu.store]

/-- Stores do not touch the pipeline registers. -/
@[simp] theorem store_stage1 (cpu : Cpu) (mem : Memory) (vga : Vga)
    (tgt : StoreTarget) (v : Nat) :
    (cpu.store mem vga tgt v).2.1.stage1 = cpu.stage1 := by
  cases tgt <;> simp [Cpu.store]

/-- C7: the claim states that the binary subtraction operator on Byte
and Word returns the wrapping difference.  The code's impl Sub bodies
compute a wrapping ADDITION instead (self.0 + rhs.0), both for
Byte/Word operands and for raw-scalar right-hand sides, while the
SubAssign impls subtract correctly; evaluating at lhs = 5, rhs = 3
yields 8 where the wrapping difference is 2. -/
theorem C7_sub_operator_adds :
    byteSub 5 3 = 8 ∧ byteSubScalar 5 3 = 8 ∧
    wordSub 5 3 = 8 ∧ wordSubScalar 5 3 = 8 ∧
    byteSubAssign 5 3 = 2 ∧ wordSubAssign 5 3 = 2 ∧
    byteSub 5 3 ≠ byteSubAssign 5 3 := by
  decide

/-- C1: for all byte-sized ALU inputs and carry-in values, alu_stage2
sets carry to the unsigned overflow of lhs + rhs + carry_in, zero to
whether the 8-bit result is zero, sign to bit 7 of the result, and
overflow to sign(lhs) = sign(rhs) together with sign(lhs) being
different from sign(result); in particular 0x7F + 1 gives 0x80 with
overflow and sign set, and 0xFF + 1 gives 0x00 with carry and zero
set. -/
theorem C1_alu_flag_formulas :
    (∀ (cpu : Cpu) (target : Option Gpr) (co : Option Nat),
      cpu.lhsLatch < 256 → cpu.rhsLatch < 256 → carryIn cpu co ≤ 1 →
      ((cpu.aluStage2 target co).2.carry
          = decide (cpu.lhsLatch + cpu.rhsLatch + carryIn cpu co > 255)
        ∧ (cpu.aluStage2 target co).2.zero
          = decide ((cpu.lhsLatch + cpu.rhsLatch + carryIn cpu co) % 256 = 0)
        ∧ (cpu.aluStage2 target co).2.sign
          = decide (128 ≤ (cpu.lhsLatch + cpu.rhsLatch + carryIn cpu co) % 256)
        ∧ (cpu.aluStage2 target co).2.overflow
          = decide (((128 ≤ cpu.lhsLatch) ↔ (128 ≤ cpu.rhsLatch))
              ∧ ¬((128 ≤ cpu.lhsLatch)
                  ↔ (128 ≤ (cpu.lhsLatch + cpu.rhsLatch + carryIn cpu co) % 256)))))
    ∧ (let r := { Cpu.new with lhsLatch := 0x7F, rhsLatch := 1 }.aluStage2
          (some .a) (some 0)
       r.1.a = 0x80 ∧ r.2.overflow = true ∧ r.2.sign = true ∧
         r.2.zero = false ∧ r.2.carry = false)
    ∧ (let r := { Cpu.new with lhsLatch := 0xFF, rhsLatch := 1 }.aluStage2
          (some .a) (some 0)
       r.1.a = 0x00 ∧ r.2.carry = true ∧ r.2.zero = true ∧
         r.2.sign = false ∧ r.2.overflow = false) := by
  refine ⟨?_, by decide, by decide⟩
  intro cpu target co hl hr hc
  have h := aluFlagHelper cpu.lhsLatch cpu.rhsLatch (carryIn cpu co) hl hr hc
  rcases co with _ | v <;>
    simp [Cpu.aluStage2, wrap16, carryIn] at h ⊢ <;>
      exact h

/-- Writing a pixel only changes the buffer. -/
@[simp] theorem set_pixel_at_v_pixel (v : Vga) (c r : Nat) (col : Color) :
    (v.set_pixel_at c r col).v_pixel = v.v_pixel := rfl

/-- Writing a pixel only changes the buffer. -/
@[simp] theorem set_pixel_at_update_vscroll (v : Vga) (c r : Nat)
    (col : Color) :
    (v.set_pixel_at c r col).update_vscroll = v.update_vscroll := rfl

/-- C5: a CPU write into the framebuffer aperture [0xC000, 0xE000)
raises the framebuffer conflict flag; while a conflict flag is set the
corresponding VGA-side read returns the cached value from the last
completed read, leaving the memory untouched, and a non-conflicted read
returns the addressed cell and refreshes the cache; the palette and
tile-data apertures behave analogously; reset_vga_conflict clears all
three flags. -/
theorem C5_bus_conflict :
    (∀ (m : Memory) (vga : Vga) (addr v : Nat),
        0xC000 ≤ addr → addr < 0xE000 →
        (m.write vga addr v).1.framebuffer_conflict = true)
  ∧ (∀ (m : Memory) (addr : Nat), m.framebuffer_conflict = true →
        m.framebuffer_read addr = (m.last_framebuffer_data, m))
  ∧ (∀ (m : Memory) (addr : Nat), m.framebuffer_conflict = false →
        (m.framebuffer_read addr).1 = m.data (addr % 0x2000 + 0xC000)
      ∧ (m.framebuffer_read addr).2.last_framebuffer_data
          = m.data (addr % 0x2000 + 0xC000))
  ∧ (∀ (m : Memory) (vga : Vga) (addr v : Nat),
        0x8C00 ≤ addr → addr < 0x9000 →
        (m.write vga addr v).1.palette_conflict = true)
  ∧ (∀ (m : Memory) (i : Nat), m.palette_conflict = true →
        m.palette_read i = (m.last_palette_data, m))
  ∧ (∀ (m : Memory) (vga : Vga) (addr v : Nat),
        0xA000 ≤ addr → addr < 0xC000 →
        (m.write vga addr v).1.tile_data_conflict = true)
  ∧ (∀ (m : Memory) (addr : Nat), m.tile_data_conflict = true →
        m.tile_data_read addr = (m.last_tile_data, m))
  ∧ (∀ m : Memory, m.reset_vga_conflict.framebuffer_conflict = false
      ∧ m.reset_vga_conflict.palette_conflict = false
      ∧ m.reset_vga_conflict.tile_data_conflict = false) := by
  refine ⟨?_, ?_, ?_, ?_, ?_, ?_, ?_, ?_⟩
  · intro m vga addr v h1 h2
    unfold Memory.write
    rw [if_neg (by omega), if_pos (show 0xC000 ≤ addr ∧ addr < 0xE000
      from ⟨h1, h2⟩)]
  · intro m addr hc
    simp [Memory.framebuffer_read, hc]
  · intro m addr hc
    simp [Memory.framebuffer_read, hc]
  · intro m vga addr v h1 h2
    unfold Memory.write
    rw [if_neg (by omega), if_neg (by omega),
      if_pos (show 0x8C00 ≤ addr ∧ addr < 0x9000 from ⟨h1, h2⟩)]
    split <;> simp
  · intro m i hc
    simp [Memory.palette_read, hc]
  · intro m vga addr v h1 h2
    unfold Memory.write
    rw [if_neg (by omega), if_neg (by omega), if_neg (by omega),
      if_pos (show 0xA000 ≤ addr ∧ addr < 0xC000 from ⟨h1, h2⟩)]
  · intro m addr hc
    simp [Memory.tile_data_read, hc]
  · intro m
    simp [Memory.reset_vga_conflict]

/-- C5 witness: the conflict behaviour evaluated on a zeroed memory at
framebuffer address 0xC123, palette address 0x8C10, and tile address
0xA010. -/
theorem C5_witness :
    (zeroMem.write zeroVga 0xC123 7).1.framebuffer_conflict = true
  ∧ (zeroMem.write zeroVga 0x8C10 7).1.palette_conflict = true
  ∧ (zeroMem.write zeroVga 0xA010 7).1.tile_data_conflict = true
  ∧ (c5wMem.framebuffer_read 3).1 = 0x55 := by
  refine ⟨?_, ?_, ?_, ?_⟩
  · exact C5_bus_conflict.1 zeroMem zeroVga 0xC123 7 (by decide) (by decide)
  · exact C5_bus_conflict.2.2.2.1 zeroMem zeroVga 0x8C10 7 (by decide)
      (by decide)
  · exact C5_bus_conflict.2.2.2.2.2.1 zeroMem zeroVga 0xA010 7 (by decide)
      (by decide)
  · rw [C5_bus_conflict.2.1 c5wMem 3 (by decide)]
    decide

/-- C8 counterexample: stepping through the line wrap reloads v_pixel
from v_offset (77 becomes 42), but update_vscroll is still true
afterwards: the latch is NOT consumed by the line-end reload, so the
reload recurs at every following line end until the frame wrap. -/
theorem C8_counterexample :
    c8Vga.update_vscroll = true
  ∧ (c8Vga.step zeroMem).1.v_pixel = 42
  ∧ (c8Vga.step zeroMem).1.update_vscroll = true := by
  decide

/-- C8 amended: when the horizontal counter wraps with update_vscroll
set, v_pixel is reloaded from v_offset, but the latch is only cleared
when this line wrap is also the frame wrap (v_counter reaching 525,
where v_pixel is instead loaded with v_offset + 33); at an ordinary
line end the latch stays set. -/
theorem C8_vscroll_reload (v : Vga) (mem : Memory)
    (hu : v.update_vscroll = true) (hh : v.h_counter = 799) :
    (v.step mem).1.v_pixel
        = (if v.v_counter + 1 = 525 then wrap16 (v.v_offset + 33)
           else v.v_offset)
  ∧ (v.step mem).1.update_vscroll = decide (¬ v.v_counter + 1 = 525) := by
  by_cases hvc : v.v_counter + 1 = 525 <;>
    simp [Vga.step, hh, hu, hvc, apply_ite]

/-- C8 witness: the amended reload theorem applied at the frame-wrap
state (v_pixel is loaded with v_offset + 33 and the latch clears). -/
theorem C8_witness :
    (c8wVga.step zeroMem).1.v_pixel
        = (if c8wVga.v_counter + 1 = 525 then wrap16 (c8wVga.v_offset + 33)
           else c8wVga.v_offset)
  ∧ (c8wVga.step zeroMem).1.update_vscroll
        = decide (¬ c8wVga.v_counter + 1 = 525) := by
  exact C8_vscroll_reload c8wVga zeroMem (by decide) (by decide)

/-- C6: the claim says reset loads a caller-supplied reset vector into
PC and clears SP, SI, DI, all five flags, the pipeline and the internal
latches.  Cpu::reset in src/src/cpu.rs accepts no reset vector (it
always sets PC to the constant 0x0000), and it clears only PC, SP and
the three pipeline registers: SI, DI, the flags, the constant latch and
the ALU latches keep their old values.  (lib.rs, in the same tree,
calls self.cpu.reset(CPU_RESET_PC) with an argument, matching the claim
rather than this definition.) -/
theorem C6_reset_divergence :
    c6Cpu.reset.pc = 0x0000 ∧ c6Cpu.reset.sp = 0x0000
  ∧ c6Cpu.reset.stage0 = .nop ∧ c6Cpu.reset.stage1 = .nop
  ∧ c6Cpu.reset.stage2 = .nop
  ∧ c6Cpu.reset.si = 0x0005 ∧ c6Cpu.reset.di = 0x0006
  ∧ c6Cpu.reset.flags = ⟨true, true, true, true, true⟩
  ∧ c6Cpu.reset.constant = 0x09
  ∧ c6Cpu.reset.lhsLatch = 3 ∧ c6Cpu.reset.rhsLatch = 4 := by
  decide

/-- mapContains as membership of the key list. -/
theorem mapContains_iff_mem (m : ValueMap) (k : String) :
    mapContains m k = true ↔ k ∈ m.map Prod.fst := by
  simp [mapContains, List.any_eq_true, List.mem_map]

/-- Updating an existing key does not change containment. -/
theorem mapContains_mapUpdate (k : String) (v : Option Int) (x : String) :
    ∀ (m : ValueMap),
    mapContains (m.map fun p => if p.1 = k then (k, v) else p) x
      = mapContains m x := by
  intro m
  induction m with
  | nil => rfl
  | cons p t ih =>
    simp only [List.map_cons, mapContains, List.any_cons] at ih ⊢
    by_cases hp : p.1 = k <;> simp [hp, ih]

/-- Containment after an insert. -/
theorem mapContains_insertVal (m : ValueMap) (k : String) (v : Option Int)
    (x : String) :
    mapContains (insertVal m k v) x = (mapContains m x || decide (x = k)) := by
  by_cases hm : mapContains m k = true
  · simp only [insertVal, hm, if_true]
    rw [mapContains_mapUpdate]
    by_cases hx : x = k
    · subst hx
      simp [hm]
    · simp [hx]
  · simp only [insertVal]
    rw [if_neg hm]
    simp only [mapContains, List.any_append, List.any_cons, List.any_nil,
      Bool.or_false]
    congr 1
    exact decide_eq_decide.mpr eq_comm

/-- Length after an insert. -/
theorem length_insertVal (m : ValueMap) (k : String) (v : Option Int) :
    (insertVal m k v).length
      = if mapContains m k then m.length else m.length + 1 := by
  by_cases hm : mapContains m k <;> simp [insertVal, hm]

/-- Updating an existing key does not change the key list. -/
theorem keys_mapUpdate (m : ValueMap) (k : String) (v : Option Int) :
    (m.map fun p => if p.1 = k then (k, v) else p).map Prod.fst
      = m.map Prod.fst := by
  rw [List.map_map]
  refine List.map_congr_left ?_
  intro p _
  by_cases hp : p.1 = k <;> simp [hp, Function.comp]

/-- Key uniqueness is preserved by an insert. -/
theorem nodupKeys_insertVal (m : ValueMap) (k : String) (v : Option Int)
    (h : (m.map Prod.fst).Nodup) :
    ((insertVal m k v).map Prod.fst).Nodup := by
  by_cases hm : mapContains m k = true
  · simp only [insertVal, hm, if_true]
    rw [keys_mapUpdate]
    exact h
  · have hk : k ∉ m.map Prod.fst := by
      rw [← mapContains_iff_mem]
      simp [hm]
    simp only [insertVal, hm, if_false, List.map_append, List.map_cons,
      List.map_nil]
    simp [List.nodup_append, h, hk]

/-- Pointwise implication of predicates gives a sublist of filters. -/
theorem filter_sublist_of_imp {α : Type} (l : List α) (p q : α → Bool)
    (h : ∀ a, p a = true → q a = true) :
    List.Sublist (l.filter p) (l.filter q) := by
  induction l with
  | nil => exact List.Sublist.refl _
  | cons a t ih =>
    by_cases hp : p a
    · have hq : q a := h a hp
      simpa [List.filter_cons, hp, hq] using ih.cons₂ a
    · by_cases hq : q a
      · simpa [List.filter_cons, hp, hq] using ih.cons a
      · simpa [List.filter_cons, hp, hq] using ih

/-- A sublist missing one of the superlist's members is strictly
shorter. -/
theorem length_lt_of_sublist_of_not_mem {α : Type} {l₁ l₂ : List α} {a : α}
    (hs : List.Sublist l₁ l₂) (hm : a ∈ l₂) (hn : a ∉ l₁) :
    l₁.length < l₂.length := by
  rcases Nat.lt_or_ge l₁.length l₂.length with h | h
  · exact h
  · have heq : l₁ = l₂ := hs.eq_of_length (Nat.le_antisymm hs.length_le h)
    exact absurd (heq ▸ hm) hn

/-- passStep either keeps the map or inserts a fresh binding for its
pair's name. -/
theorem passStep_cases (name : String) (e : Expression) (ls : List String)
    (vals : ValueMap) (errs : List AsmDiag) :
    (passStep name e ls vals errs).1 = vals ∨
      (mapContains vals name = false ∧
        ∃ v, (passStep name e ls vals errs).1 = insertVal vals name v) := by
  by_cases hc : mapContains vals name = true
  · left
    simp [passStep, hc]
  · have hc' : mapContains vals name = false := by
      simpa using hc
    rcases htv : e.try_eval ls vals with err | v
    · rcases err with _ | _ | _ | _ | n
      · exact Or.inr ⟨hc', none, by simp [passStep, hc, htv]⟩
      · exact Or.inr ⟨hc', none, by simp [passStep, hc, htv]⟩
      · exact Or.inr ⟨hc', none, by simp [passStep, hc, htv]⟩
      · left
        simp [passStep, hc, htv]
      · exact Or.inr ⟨hc', none, by simp [passStep, hc, htv]⟩
    · exact Or.inr ⟨hc', some v, by simp [passStep, hc, htv]⟩

/-- The three step invariants at once: the combined length-plus-potential
measure does not grow, the length does not shrink, and containment is
monotone. -/
theorem passStep_spec (E : List (String × Expression)) (name : String)
    (e : Expression) (ls : List String) (vals : ValueMap)
    (errs : List AsmDiag) (hname : ∃ q ∈ E, q.1 = name) :
    (passStep name e ls vals errs).1.length
        + phi E (passStep name e ls vals errs).1
      ≤ vals.length + phi E vals ∧
    vals.length ≤ (passStep name e ls vals errs).1.length ∧
    ∀ k, mapContains vals k = true →
      mapContains (passStep name e ls vals errs).1 k = true := by
  rcases passStep_cases name e ls vals errs with h | ⟨hc, v, h⟩
  · rw [h]
    exact ⟨Nat.le_refl _, Nat.le_refl _, fun k hk => hk⟩
  · rw [h]
    have hmono : ∀ k, mapContains vals k = true →
        mapContains (insertVal vals name v) k = true := by
      intro k hk
      rw [mapContains_insertVal]
      simp [hk]
    have hlen : (insertVal vals name v).length = vals.length + 1 := by
      rw [length_insertVal, hc]
      simp
    have hsub : List.Sublist
        (E.filter fun p => !(mapContains (insertVal vals name v) p.1))
        (E.filter fun p => !(mapContains vals p.1)) := by
      refine filter_sublist_of_imp E _ _ ?_
      intro p hp
      simp only [Bool.not_eq_true'] at hp ⊢
      rcases hcase : mapContains vals p.1 with _ | _
      · rfl
      · exact absurd (hmono p.1 hcase) (by simp [hp])
    obtain ⟨q, hqE, hqname⟩ := hname
    have hq_old : q ∈ E.filter (fun p => !(mapContains vals p.1)) := by
      rw [List.mem_filter]
      exact ⟨hqE, by simp [hqname, hc]⟩
    have hq_new : q ∉ E.filter
        (fun p => !(mapContains (insertVal vals name v) p.1)) := by
      rw [List.mem_filter]
      rintro ⟨-, hq⟩
      rw [hqname, mapContains_insertVal] at hq
      simp at hq
    have hstrict := length_lt_of_sublist_of_not_mem hsub hq_old hq_new
    refine ⟨?_, by omega, hmono⟩
    simp only [phi]
    omega

/-- The pass-level invariants, by induction over the queued pairs. -/
theorem evalPassOne_spec (E : List (String × Expression)) :
    ∀ (exprs : List (String × Expression)) (ls : List String)
      (vals : ValueMap) (errs : List AsmDiag),
    (∀ p ∈ exprs, ∃ q ∈ E, q.1 = p.1) →
    (evalPassOne exprs ls vals errs).1.length
        + phi E (evalPassOne exprs ls vals errs).1
      ≤ vals.length + phi E vals ∧
    vals.length ≤ (evalPassOne exprs ls vals errs).1.length ∧
    ∀ k, mapContains vals k = true →
      mapContains (evalPassOne exprs ls vals errs).1 k = true := by
  intro exprs
  induction exprs with
  | nil =>
    intro ls vals errs _
    exact ⟨Nat.le_refl _, Nat.le_refl _, fun k hk => hk⟩
  | cons p rest ih =>
    intro ls vals errs hE
    have hstep := passStep_spec E p.1 p.2 ls vals errs (hE p (by simp))
    have hrest := ih ls (passStep p.1 p.2 ls vals errs).1
      (passStep p.1 p.2 ls vals errs).2 (fun q hq => hE q (by simp [hq]))
    simp only [evalPassOne]
    exact ⟨by omega, by omega,
      fun k hk => hrest.2.2 k (hstep.2.2 k hk)⟩

/-- Key uniqueness is preserved by a pass. -/
theorem evalPassOne_nodup :
    ∀ (exprs : List (String × Expression)) (ls : List String)
      (vals : ValueMap) (errs : List AsmDiag),
    (vals.map Prod.fst).Nodup →
    ((evalPassOne exprs ls vals errs).1.map Prod.fst).Nodup := by
  intro exprs
  induction exprs with
  | nil =>
    intro ls vals errs h
    exact h
  | cons p rest ih =>
    intro ls vals errs h
    simp only [evalPassOne]
    refine ih ls _ _ ?_
    rcases passStep_cases p.1 p.2 ls vals errs with hv | ⟨-, v, hv⟩ <;> rw [hv]
    · exact h
    · exact nodupKeys_insertVal vals p.1 v h

/-- The loop invariant: with fuel exceeding the potential, the loop
reaches its break, within potential-plus-one further passes, keeping
key uniqueness. -/
theorem evalLoop_spec :
    ∀ (fuel : Nat) (exprs : List (String × Expression)) (ls : List String)
      (vals : ValueMap) (errs : List AsmDiag) (passes : Nat),
    phi exprs vals < fuel → (vals.map Prod.fst).Nodup →
    (evalLoop fuel exprs ls vals errs vals.length passes).2.2.2 = true ∧
    (evalLoop fuel exprs ls vals errs vals.length passes).2.2.1
      ≤ passes + phi exprs vals + 1 ∧
    ((evalLoop fuel exprs ls vals errs vals.length passes).1.map
      Prod.fst).Nodup := by
  intro fuel
  induction fuel with
  | zero =>
    intro exprs ls vals errs passes hphi _
    omega
  | succ n ih =>
    intro exprs ls vals errs passes hphi hnd
    have hpass := evalPassOne_spec exprs exprs ls vals errs
      (fun p hp => ⟨p, hp, rfl⟩)
    have hnd2 := evalPassOne_nodup exprs ls vals errs hnd
    simp only [evalLoop]
    by_cases hlt : vals.length < (evalPassOne exprs ls vals errs).1.length
    · rw [if_pos hlt]
      have := ih exprs ls (evalPassOne exprs ls vals errs).1
        (evalPassOne exprs ls vals errs).2 (passes + 1) (by omega) hnd2
      exact ⟨this.1, by omega, this.2.2⟩
    · rw [if_neg hlt]
      refine ⟨rfl, ?_, hnd2⟩
      show passes + 1 ≤ passes + phi exprs vals + 1
      omega

/-- C9 (code bug): the assembler front end rejects the claim's own
source text, so assembling it cannot succeed.  The lexer has no token
for the hash character (no reader in read_token matches it), so lexing
the line start colon mov a comma hash 1 yields an InvalidChar token
among the expected ones; emit_lexer_errors on that token list reports
an InvalidChars diagnostic and returns false, so the line is never
parsed and assemble returns Err.  The byte tables themselves are right:
the hand-built AST of the intended program (MovInstruction::new
accepting mov a comma immediate at emit size 2, JmpInstruction::new
accepting a 16-bit expression target at emit size 6) assembles to start
address 0 and exactly the eight claimed bytes 01 01 05 00 06 00 5F
60. -/
theorem C9_source_rejected :
    lexTokens (c9SourceLine.length + 1) c9SourceLine =
      some [.identifier "start", .punctuation .colon, .mnemonic .mov,
        .register .a, .punctuation .comma, .invalidChar '#',
        .integerLiteral 1] ∧
    (emitLexerErrors [Jam1Token.identifier "start", .punctuation .colon,
        .mnemonic .mov, .register .a, .punctuation .comma,
        .invalidChar '#', .integerLiteral 1]).1 = false ∧
    (emitLexerErrors [Jam1Token.identifier "start", .punctuation .colon,
        .mnemonic .mov, .register .a, .punctuation .comma,
        .invalidChar '#', .integerLiteral 1]).2 = [AsmDiag.invalidChars] ∧
    MovInstruction.new (.register .a) (.value (.literal (some 1))) =
      some ⟨.register .a, .value (.literal (some 1)), 2⟩ ∧
    JmpInstruction.new (.value (.identifier "start")) =
      some ⟨.value (.identifier "start"), 6⟩ ∧
    assembleAst [c9Raw] 0 ["start"] =
      some (.ok (0, [0x01, 0x01, 0x05, 0x00, 0x06, 0x00, 0x5F, 0x60])) :=
  ⟨rfl, rfl, rfl, rfl, rfl, rfl⟩

/-- C10 (amended): run with fuel one more than the number of queued
expression-label pairs and the loop counter seeded with the size of the
positional map, the expression loop of evaluate_labels reaches its
break within N plus one passes (N the number of pairs), preserves key
uniqueness of the value map, and every queued pair whose name never
entered the map is reported by the cyclic-reference check. -/
theorem C10_label_loop_bound (exprs : List (String × Expression))
    (ls : List String) (vals : ValueMap) (errs : List AsmDiag)
    (hkeys : (vals.map Prod.fst).Nodup) :
    (evalLoop (exprs.length + 1) exprs ls vals errs vals.length 0).2.2.2
        = true ∧
    (evalLoop (exprs.length + 1) exprs ls vals errs vals.length 0).2.2.1
        ≤ exprs.length + 1 ∧
    ((evalLoop (exprs.length + 1) exprs ls vals errs vals.length 0).1.map
        Prod.fst).Nodup ∧
    ∀ p ∈ exprs,
      mapContains
          (evalLoop (exprs.length + 1) exprs ls vals errs vals.length 0).1 p.1
        = false →
      AsmDiag.cyclicExpression p.1 ∈ cyclicDiags exprs
        (evalLoop (exprs.length + 1) exprs ls vals errs vals.length 0).1 := by
  have hphi : phi exprs vals < exprs.length + 1 := by
    simp only [phi]
    exact Nat.lt_succ_of_le (List.length_filter_le _ exprs)
  obtain ⟨ht, hp, hn⟩ :=
    evalLoop_spec (exprs.length + 1) exprs ls vals errs 0 hphi hkeys
  refine ⟨ht, by omega, hn, ?_⟩
  intro p hmem hcont
  simp only [cyclicDiags, List.mem_map, List.mem_filter]
  exact ⟨p, ⟨hmem, by simp [hcont]⟩, rfl⟩

/-- C10 counterexample: a single resolvable expression label (name b,
value the address label a) makes the loop run two passes before its
break, exceeding the claimed bound of N equal 1 passes. -/
theorem C10_counterexample :
    (evalLoop (([(("b" : String), Expression.identifier "a")]).length + 1)
        [("b", Expression.identifier "a")] ["a", "b"]
        [("a", some 0)] [] 1 0).2.2.2 = true ∧
    (evalLoop (([(("b" : String), Expression.identifier "a")]).length + 1)
        [("b", Expression.identifier "a")] ["a", "b"]
        [("a", some 0)] [] 1 0).2.2.1 = 2 ∧
    ([(("b" : String), Expression.identifier "a")]).length = 1 := by
  decide

/-- C10 witness: the amended bound applied to the concrete
one-expression-label program. -/
theorem C10_witness :
    (([(("a" : String), (some 0 : Option Int))] : ValueMap).map
      Prod.fst).Nodup ∧
    ((evalLoop (([(("b" : String), Expression.identifier "a")]).length + 1)
        [("b", Expression.identifier "a")] ["a", "b"] [("a", some 0)] []
        ([(("a" : String), (some 0 : Option Int))] : ValueMap).length
        0).2.2.2 = true ∧
    (evalLoop (([(("b" : String), Expression.identifier "a")]).length + 1)
        [("b", Expression.identifier "a")] ["a", "b"] [("a", some 0)] []
        ([(("a" : String), (some 0 : Option Int))] : ValueMap).length
        0).2.2.1 ≤ ([(("b" : String), Expression.identifier "a")]).length + 1 ∧
    ((evalLoop (([(("b" : String), Expression.identifier "a")]).length + 1)
        [("b", Expression.identifier "a")] ["a", "b"] [("a", some 0)] []
        ([(("a" : String), (some 0 : Option Int))] : ValueMap).length
        0).1.map Prod.fst).Nodup ∧
    ∀ p ∈ ([(("b" : String), Expression.identifier "a")] :
        List (String × Expression)),
      mapContains
          (evalLoop
            (([(("b" : String), Expression.identifier "a")]).length + 1)
            [("b", Expression.identifier "a")] ["a", "b"] [("a", some 0)] []
            ([(("a" : String), (some 0 : Option Int))] : ValueMap).length
            0).1 p.1 = false →
      AsmDiag.cyclicExpression p.1 ∈
        cyclicDiags [("b", Expression.identifier "a")]
          (evalLoop
            (([(("b" : String), Expression.identifier "a")]).length + 1)
            [("b", Expression.identifier "a")] ["a", "b"] [("a", some 0)] []
            ([(("a" : String), (some 0 : Option Int))] : ValueMap).length
            0).1) :=
  ⟨by decide,
    C10_label_loop_bound [("b", Expression.identifier "a")] ["a", "b"]
      [("a", some 0)] [] (by decide)⟩

/-- C1 witness: the universally quantified part of C1 applied at the
concrete input lhs = 0x7F, rhs = 1, carry-in override 0. -/
theorem C1_witness :
    (let cpu := { Cpu.new with lhsLatch := 0x7F, rhsLatch := 1 }
     cpu.lhsLatch < 256 ∧ cpu.rhsLatch < 256 ∧ carryIn cpu (some 0) ≤ 1 ∧
       ((cpu.aluStage2 (some .a) (some 0)).2.carry
          = decide (cpu.lhsLatch + cpu.rhsLatch + carryIn cpu (some 0) > 255))) := by
  refine ⟨by decide, by decide, by decide, ?_⟩
  exact (C1_alu_flag_formulas.1 _ (some .a) (some 0)
    (by decide) (by decide) (by decide)).1

end Jam1

